import Mathlib

/-!
# lmon: the reconciliation loop of the Lisk node monitor

A shallow embedding of `main.go`.  Every function of the program that talks to
the outside (HTTP, the file system, child processes, the clock) is a state
transformer over an abstract world `W`; the answers of the outside, and the
library functions `json.Unmarshal` and `sort.Slice`, are given by an `Env W`.
A Go panic is the `error` case of `Except`.  The type `int` is that of the
64-bit platforms: `Int` with sums wrapped around by `wrapInt`.  What the
program prints is left out.  `Do` counts its invocations of the work function,
and the loop of `main` keeps the row of the calls that have returned.
-/

namespace Lmon

/-! ## Effects -/

/-- The value a Go panic carries. -/
inductive Panic where
  /-- A string: panic("...") or panic(err.Error()). -/
  | text (msg : String)
  /-- An error value: panic(err). -/
  | error (err : String)
  /-- The method value of an error: panic(err.Error). -/
  | method (err : String)
  /-- A run-time panic: index out of range, nil pointer dereference. -/
  | runtime (msg : String)
deriving DecidableEq, Repr

/-- A computation over a state: it ends with a value or with a panic, and leaves a state. -/
def Act (σ α : Type) : Type := σ → Except Panic α × σ

/-- Return a value, leaving the state as it is. -/
def Act.ret {σ α : Type} (a : α) : Act σ α := fun s => (Except.ok a, s)

/-- Go panic(msg). -/
def Act.panic {σ α : Type} (msg : Panic) : Act σ α := fun s => (Except.error msg, s)

/-- Sequencing: a panic of the first computation ends the whole. -/
def Act.andThen {σ α β : Type} (x : Act σ α) (f : α → Act σ β) : Act σ β := fun s =>
  match x s with
  | (Except.ok a, s1) => f a s1
  | (Except.error e, s1) => (Except.error e, s1)

instance {σ : Type} : Monad (Act σ) where
  pure := Act.ret
  bind := Act.andThen

/-- A call to the outside that cannot panic. -/
def Act.ask {σ α : Type} (f : σ → α × σ) : Act σ α := fun s => (Except.ok (f s).1, (f s).2)

/-- A pure step that may panic. -/
def Act.ofExcept {σ α : Type} (x : Except Panic α) : Act σ α := fun s => (x, s)

/-! ## Library: Do -/

/-- The errors Do can hand back: the one the work function reported, or one made by errors.New. -/
inductive GoError (ε : Type) where
  | fromWork (e : ε)
  | errorsNew (msg : String)
deriving DecidableEq, Repr

/-- The method Error() of an error value. -/
def GoError.Error : GoError String → String
  | GoError.fromWork e => e
  | GoError.errorsNew msg => msg

/-- RetryFunc: func(attempt int) (retry bool, err error), a closure over the state σ. -/
abbrev RetryFunc (σ ε : Type) : Type := Nat → σ → (Bool × Option ε) × σ

/-- What Do returns (err, nil is none), with the number of times it invoked fn. -/
structure DoResult (ε : Type) where
  err : Option (GoError ε)
  calls : Nat
deriving DecidableEq, Repr

/-- The local maxRetries of Do. -/
def maxRetries : Nat := 50

/-- The for loop of Do, entered with the given attempt after calls invocations of fn. -/
def DoLoop {σ ε : Type} (fn : RetryFunc σ ε) (attempt calls : Nat) (s : σ) : DoResult ε × σ :=
  match fn attempt s with
  | ((cont, err), s1) =>
    if !cont || err.isNone then
      (⟨err.map GoError.fromWork, calls + 1⟩, s1)
    else if h : attempt + 1 > maxRetries then
      (⟨some (GoError.errorsNew "Exceeded max retry limit"), calls + 1⟩, s1)
    else
      DoLoop fn (attempt + 1) (calls + 1) s1
termination_by maxRetries + 1 - attempt
decreasing_by omega

/-- Do keeps trying the function until the second argument returns false, or no error is returned. -/
def Do {σ ε : Type} (fn : RetryFunc σ ε) (s : σ) : DoResult ε × σ :=
  DoLoop fn 1 0 s

/-- The state in which the invocation number i+1 of fn starts, when fn is invoked
with attempt 1, 2, 3, ... in a row from s. -/
def stateBefore {σ ε : Type} (fn : RetryFunc σ ε) (s : σ) : Nat → σ
  | 0 => s
  | i + 1 => (fn (i + 1) (stateBefore fn s i)).2

/-- What the invocation number n of fn (n from 1) reports in that row of invocations. -/
def report {σ ε : Type} (fn : RetryFunc σ ε) (s : σ) (n : Nat) : Bool × Option ε :=
  (fn n (stateBefore fn s (n - 1))).1

/-- Whether the loop of Do stops of itself on a report: retry is false or the error is nil. -/
def stops {ε : Type} (r : Bool × Option ε) : Bool := !r.1 || r.2.isNone

/-- The error Do returns when the invocation with the given report was its last one. -/
def errorAfter {ε : Type} (r : Bool × Option ε) : Option (GoError ε) :=
  if stops r then r.2.map GoError.fromWork else some (GoError.errorsNew "Exceeded max retry limit")

/-! ## The outside world -/

/-- Configuration struct. -/
structure Configuration where
  NodeURL : String
  PublicKey : String
  /-- Forging password, not your wallet password. -/
  Password : String
  Delegate : String
  HomePath : String
  InstallationPath : String
  PublicNodeURL : String
deriving DecidableEq, Repr

/-- An http.Response as far as the program reads it: the status line, and what
ioutil.ReadAll gives for its Body (the bytes read, and the error). -/
structure Response where
  Status : String
  Body : String
  readErr : Option String
deriving DecidableEq, Repr

/-- Peer is a representation of a peer. -/
structure Peer where
  IP : String
  Height : Int
deriving DecidableEq, Repr

/-- The struct Package of localVersion. -/
structure Package where
  Version : String
deriving DecidableEq, Repr

/-- The struct Node of isForging and enableForging. -/
structure ForgingNode where
  Forging : Bool
deriving DecidableEq, Repr

/-- The struct Node of missedBlocks. -/
structure DelegateNode where
  MissedBlocks : Int
deriving DecidableEq, Repr

/-- The order sort.Slice leaves a slice in: no element is less than one before it. -/
def SortedBy {α : Type} (less : α → α → Bool) (xs : List α) : Prop :=
  xs.Pairwise (fun a b => less b a = false)

/-- The library function sort.Slice, by its contract: for a less that is the strict
part of a total preorder, the slice afterwards holds the same elements, in order.
Which of two elements that are not less than each other comes first is left open. -/
structure SliceSorter where
  sort : {α : Type} → (α → α → Bool) → List α → List α
  perm : ∀ {α : Type} (less : α → α → Bool) (xs : List α), (sort less xs).Perm xs
  sorted : ∀ {α : Type} (less : α → α → Bool) (xs : List α),
    (∀ a b c, less b a = false → less c b = false → less c a = false) →
    (∀ a b, less b a = false ∨ less a b = false) →
    SortedBy less (sort less xs)

/-- The answers of everything outside the program, over a world W. -/
structure Env (W : Type) where
  /-- The call http.Get(url). -/
  httpGet : String → W → Except String Response × W
  /-- Whether http.NewRequest(method, url, body) returns an error (and a nil request). -/
  newRequestFails : String → String → Bool
  /-- The call client.Do(req), for a request with this method, url and body. -/
  clientDo : String → String → String → W → Except String Response × W
  /-- The call ioutil.ReadFile(path). -/
  readFile : String → W → Except String String × W
  /-- The call os.Remove(path). -/
  osRemove : String → W → Option String × W
  /-- The call os.Create(path), its error. -/
  osCreate : String → W → Option String × W
  /-- The call io.Copy into the file at the path from the body of the response, its error. -/
  ioCopy : String → Response → W → Option String × W
  /-- The call os.Chmod(path, mode), its error. -/
  osChmod : String → Nat → W → Option String × W
  /-- The call exec.Command(app, args...).Output(). -/
  cmdOutput : String → List String → W → Except String String × W
  /-- The call time.Sleep, in seconds. -/
  sleep : Nat → W → W
  /-- The call json.Unmarshal into a zero Package: the struct afterwards and the error. -/
  unmarshalPackage : String → Package × Option String
  /-- The call json.Unmarshal into a struct with a field Data []Peer. -/
  unmarshalPeers : String → List Peer × Option String
  /-- The call json.Unmarshal into a struct with a field Data Peer. -/
  unmarshalStatus : String → Peer × Option String
  /-- The call json.Unmarshal into a struct with a field Data []Node, Node with forging. -/
  unmarshalForging : String → List ForgingNode × Option String
  /-- The call json.Unmarshal into a struct with a field Data []Node, Node with missedBlocks. -/
  unmarshalDelegates : String → List DelegateNode × Option String
  /-- The call sort.Slice. -/
  sortSlice : SliceSorter

/-! ## Go library functions the program computes with -/

/-- The function unicode.IsSpace. -/
def isSpace (c : Char) : Bool :=
  let n := c.toNat
  (0x09 ≤ n && n ≤ 0x0d) || n == 0x20 || n == 0x85 || n == 0xA0 || n == 0x1680 ||
  (0x2000 ≤ n && n ≤ 0x200a) || n == 0x2028 || n == 0x2029 || n == 0x202f || n == 0x205f ||
  n == 0x3000

/-- The function strings.TrimSpace: all leading and trailing white space removed. -/
def TrimSpace (s : String) : String :=
  String.mk ((s.data.dropWhile isSpace).reverse.dropWhile isSpace).reverse

/-- The width of the Go type int on the 64-bit platforms. -/
def intBits : Nat := 64

/-- The smallest int, -2^63. -/
def minInt : Int := -(2 ^ (intBits - 1))

/-- The largest int, 2^63 - 1. -/
def maxInt : Int := 2 ^ (intBits - 1) - 1

/-- An integer brought back into the range of int, as Go arithmetic wraps around. -/
def wrapInt (x : Int) : Int := (x - minInt) % 2 ^ intBits + minInt

/-- The sum a + b of two int. -/
def addInt (a b : Int) : Int := wrapInt (a + b)

/-- The run-time panic of an index expression xs[0] on an empty slice. -/
def indexOutOfRange : Panic := Panic.runtime "index out of range [0] with length 0"

/-! ## Functions -/

section Functions

variable {W : Type} (E : Env W) (config : Configuration)

def localVersion : Act W String := do
  let filePath := config.InstallationPath ++ "/package.json"
  match ← Act.ask (E.readFile filePath) with
  | Except.error err => Act.panic (Panic.text err)
  | Except.ok file =>
    -- _ = json.Unmarshal([]byte(file), &data)
    let data := (E.unmarshalPackage file).1
    return data.Version

def latestVersion : Act W String := do
  let url := "https://downloads.lisk.io/lisk/test/latest.txt"
  match ← Act.ask (E.httpGet url) with
  | Except.error err => Act.panic (Panic.text err)
  | Except.ok resp =>
    match resp.readErr with
    | some err => Act.panic (Panic.text err)
    | none => return TrimSpace resp.Body

/-- The function download: it returns its error, nil is none. -/
def download (url : String) (savePath : String) : Act W (Option String) := do
  match ← Act.ask (E.httpGet url) with
  | Except.error err => return some err
  | Except.ok resp =>
    match ← Act.ask (E.osCreate savePath) with
    | some err => return some err
    | none => Act.ask (E.ioCopy savePath resp)

def update : Act W Unit := do
  let scriptPath := config.HomePath ++ "/installLisk.sh"
  let _ ← Act.ask (E.osRemove scriptPath) -- ignore error
  match ← download E "https://downloads.lisk.io/lisk/test/installLisk.sh" scriptPath with
  | some downloadErr => Act.panic (Panic.method downloadErr)
  | none =>
    match ← Act.ask (E.osChmod scriptPath 0o755) with
    | some chmodErr => Act.panic (Panic.method chmodErr)
    | none =>
      match ← Act.ask (E.cmdOutput scriptPath
          ["upgrade", "-r", "test", "-d", config.HomePath, "-0", "no"]) with
      | Except.error err => Act.panic (Panic.text err)
      | Except.ok _ => return ()

def publicPeers : Act W (List Peer) := do
  let url := config.PublicNodeURL ++ ":7000/api/peers?limit=100"
  match ← Act.ask (E.httpGet url) with
  | Except.error err => Act.panic (Panic.text err)
  | Except.ok res =>
    match res.readErr with
    | some err => Act.panic (Panic.text err)
    | none =>
      match E.unmarshalPeers res.Body with
      | (_, some unmarshalErr) => Act.panic (Panic.text unmarshalErr)
      | (data, none) => return data

def publicHeight (ps : List Peer) : Except Panic Int :=
  match E.sortSlice.sort (fun a b => decide (a.Height < b.Height)) ps with
  | [] => Except.error indexOutOfRange
  | p :: _ => Except.ok p.Height

def localHeight : Act W Int := do
  match ← Act.ask (E.httpGet (config.NodeURL ++ "/api/node/status")) with
  | Except.error err => Act.panic (Panic.text err)
  | Except.ok res =>
    match res.readErr with
    | some err => Act.panic (Panic.text err)
    | none =>
      match E.unmarshalStatus res.Body with
      | (_, some unmarshalErr) => Act.panic (Panic.text unmarshalErr)
      | (data, none) => return data.Height

/-- The function isAPIReady: the status and the error (nil is none); it cannot panic. -/
def isAPIReady (w : W) : (String × Option String) × W :=
  match E.httpGet (config.NodeURL ++ "/api/node/status") w with
  | (Except.error err, w1) => (("", some err), w1)
  | (Except.ok resp, w1) => ((resp.Status, none), w1)

def reload : Act W Unit := do
  let app := config.InstallationPath ++ "/lisk.sh"
  match ← Act.ask (E.cmdOutput app ["reload"]) with
  | Except.error err => Act.panic (Panic.text err)
  | Except.ok _ => return ()

/-- The constant maxAttempts of waitUntilAPIReady. -/
def maxAttempts : Nat := 10

/-- The constant delayBetweenAttemptsInSeconds of waitUntilAPIReady. -/
def delayBetweenAttemptsInSeconds : Nat := 10

/-- The closure waitUntilAPIReady hands to Do: one call of isAPIReady, and a sleep after an error. -/
def readinessWork : RetryFunc W String := fun attempt w =>
  match isAPIReady E config w with
  | ((_, err), w1) =>
    let w2 := if err.isSome then E.sleep delayBetweenAttemptsInSeconds w1 else w1
    ((decide (attempt < maxAttempts), err), w2)

def waitUntilAPIReady : Act W Unit := fun w =>
  match Do (readinessWork E config) w with
  | (r, w1) =>
    match r.err with
    | some doErr => (Except.error (Panic.text doErr.Error), w1)
    | none => (Except.ok (), w1)

def enableForging : Act W Unit := do
  let url := config.NodeURL ++ "/api/node/status/forging"
  let jsonString := "\x7b\"forging\": true, \"publicKey\": \"" ++ config.PublicKey ++
    "\", \"password\": \"" ++ config.Password ++ "\"\x7d"
  -- the error of http.NewRequest is overwritten unread, and req is nil with it
  if E.newRequestFails "PUT" url then
    Act.panic (Panic.runtime "invalid memory address or nil pointer dereference")
  else
    match ← Act.ask (E.clientDo "PUT" url jsonString) with
    | Except.error err => Act.panic (Panic.error err)
    | Except.ok res =>
      -- body, _ := ioutil.ReadAll(res.Body)
      let body := res.Body
      match E.unmarshalForging body with
      | (_, some unmarshalErr) => Act.panic (Panic.error unmarshalErr)
      | (data, none) =>
        match data with
        | [] => Act.panic indexOutOfRange
        | node :: _ =>
          if node.Forging != true then
            Act.panic (Panic.text "Could not enable forging")
          else
            return ()

def missedBlocks : Act W Int := do
  match ← Act.ask (E.httpGet (config.NodeURL ++ "/api/delegates?username=" ++ config.Delegate)) with
  | Except.error err => Act.panic (Panic.text err)
  | Except.ok res =>
    match res.readErr with
    | some err => Act.panic (Panic.text err)
    | none =>
      match E.unmarshalDelegates res.Body with
      | (_, some unmarshalErr) => Act.panic (Panic.error unmarshalErr)
      | (data, none) =>
        match data with
        | [] => Act.panic indexOutOfRange
        | node :: _ => return node.MissedBlocks

def needsUpdate : Act W Bool := do
  let l ← localVersion E config
  let r ← latestVersion E
  return l != r

def needsReload (prevMissedBlocks : Int) : Act W Bool := do
  let lh ← localHeight E config
  let ps ← publicPeers E config
  let ph ← Act.ofExcept (publicHeight E ps)
  if addInt lh 1 < ph then
    return true
  else
    let mb ← missedBlocks E config
    return decide (mb > prevMissedBlocks)

/-! ## The loop of main -/

/-- A call the loop of main has made and seen return, with what it returned. -/
inductive Step where
  | needsUpdate (verdict : Bool)
  | update
  | waitUntilAPIReady
  | enableForging
  | needsReload (prevMissedBlocks : Int) (verdict : Bool)
  | reload
  | missedBlocks (value : Int)
  | sleep (seconds : Nat)
deriving DecidableEq, Repr

/-- Run a call on the world and, when it returns, write it down after the calls before it. -/
def observe {α : Type} (mk : α → Step) (x : Act W α) : Act (W × List Step) α := fun s =>
  match x s.1 with
  | (Except.ok a, w1) => (Except.ok a, (w1, s.2 ++ [mk a]))
  | (Except.error e, w1) => (Except.error e, (w1, s.2))

/-- The constant interval of main: check interval in seconds. -/
def interval : Nat := 5

/-- One pass through the for loop of main; it returns prevMissedBlocks as the pass leaves it. -/
def loopBody (prevMissedBlocks : Int) : Act (W × List Step) Int := do
  if ← observe Step.needsUpdate (needsUpdate E config) then
    observe (fun _ => Step.update) (update E config)
    observe (fun _ => Step.waitUntilAPIReady) (waitUntilAPIReady E config)
    observe (fun _ => Step.enableForging) (enableForging E config)
  if ← observe (Step.needsReload prevMissedBlocks) (needsReload E config prevMissedBlocks) then
    observe (fun _ => Step.reload) (reload E config)
    observe (fun _ => Step.waitUntilAPIReady) (waitUntilAPIReady E config)
    observe (fun _ => Step.enableForging) (enableForging E config)
  let prevMissedBlocks ← observe Step.missedBlocks (missedBlocks E config)
  observe (fun _ => Step.sleep interval) (Act.ask (fun w => ((), E.sleep interval w)))
  return prevMissedBlocks

/-- The end of a pass, stated apart for the proofs: the refresh of prevMissedBlocks and the sleep. -/
def refreshPart : Act (W × List Step) Int := do
  let prevMissedBlocks ← observe Step.missedBlocks (missedBlocks E config)
  observe (fun _ => Step.sleep interval) (Act.ask (fun w => ((), E.sleep interval w)))
  return prevMissedBlocks

/-- A pass from its reload check on, stated apart for the proofs. -/
def reloadPart (prevMissedBlocks : Int) : Act (W × List Step) Int := do
  if ← observe (Step.needsReload prevMissedBlocks) (needsReload E config prevMissedBlocks) then
    observe (fun _ => Step.reload) (reload E config)
    observe (fun _ => Step.waitUntilAPIReady) (waitUntilAPIReady E config)
    observe (fun _ => Step.enableForging) (enableForging E config)
  refreshPart E config

/-- The first n passes of the for loop of main, from the given prevMissedBlocks. -/
def mainLoop : Nat → Int → Act (W × List Step) Int
  | 0, prevMissedBlocks => pure prevMissedBlocks
  | n + 1, prevMissedBlocks => do
    let prevMissedBlocks ← loopBody E config prevMissedBlocks
    mainLoop n prevMissedBlocks

/-- The calls a pass makes when it runs to its end: u and r are the two verdicts,
prev the baseline it started with, value what the refresh read. -/
def passSteps (u r : Bool) (prev value : Int) : List Step :=
  [Step.needsUpdate u] ++
  (if u then [Step.update, Step.waitUntilAPIReady, Step.enableForging] else []) ++
  [Step.needsReload prev r] ++
  (if r then [Step.reload, Step.waitUntilAPIReady, Step.enableForging] else []) ++
  [Step.missedBlocks value, Step.sleep interval]

/-- Run a call and give the step it makes with what it returned. -/
def Act.named {α : Type} (x : Act W α) (mk : α → Step) : Act W Step := fun w =>
  match x w with
  | (Except.ok a, w1) => (Except.ok (mk a), w1)
  | (Except.error e, w1) => (Except.error e, w1)

/-- The call a step names, made on the world: it gives the step with what the call
returned this time. -/
def stepCall : Step → Act W Step
  | Step.needsUpdate _ => Act.named (needsUpdate E config) Step.needsUpdate
  | Step.update => Act.named (update E config) (fun _ => Step.update)
  | Step.waitUntilAPIReady =>
    Act.named (waitUntilAPIReady E config) (fun _ => Step.waitUntilAPIReady)
  | Step.enableForging => Act.named (enableForging E config) (fun _ => Step.enableForging)
  | Step.needsReload prev _ => Act.named (needsReload E config prev) (Step.needsReload prev)
  | Step.reload => Act.named (reload E config) (fun _ => Step.reload)
  | Step.missedBlocks _ => Act.named (missedBlocks E config) Step.missedBlocks
  | Step.sleep seconds =>
    Act.named (Act.ask (fun w => ((), E.sleep seconds w))) (fun _ => Step.sleep seconds)

/-- The world a row of steps leads to from w: each call is made in the world the one
before it left, and has to return what its step says; none when one of them does not. -/
def replay : List Step → W → Option W
  | [], w => some w
  | st :: rest, w =>
    match stepCall E config st w with
    | (Except.ok st1, w1) => if st1 = st then replay rest w1 else none
    | (Except.error _, _) => none

/-- A run that panics inside a row: the calls of pre were made and returned, and the call
of the step after them panicked with e and left the world wf. -/
def PanicsAt (row : List Step) (w : W) (pre : List Step) (e : Panic) (wf : W) : Prop :=
  ∃ next rest w1, row = pre ++ next :: rest ∧ replay E config pre w = some w1 ∧
    stepCall E config next w1 = (Except.error e, wf)

end Functions

/-! ## Worked inputs -/

/-- A work function that asks for another try with an error on its first k invocations
and reports no error from then on. -/
def failsFirst (k : Nat) : RetryFunc Unit String := fun attempt s =>
  ((true, if attempt ≤ k then some "not yet" else none), s)

/-- A work function that asks for another try with the error boom every time. -/
def alwaysFailing : RetryFunc Unit String := fun _ s => ((true, some "boom"), s)

/-- The world after i probes isAPIReady in a row from w that each failed and were each
followed by the delay between attempts. -/
def afterFailures {W : Type} (E : Env W) (config : Configuration) (w : W) : Nat → W
  | 0 => w
  | i + 1 => E.sleep delayBetweenAttemptsInSeconds (isAPIReady E config (afterFailures E config w i)).2

/-- The error of the probe isAPIReady number i (from 1), made after i-1 failed probes. -/
def probeError {W : Type} (E : Env W) (config : Configuration) (w : W) (i : Nat) : Option String :=
  (isAPIReady E config (afterFailures E config w (i - 1))).1.2

/-- The same outside with a counter next to the world: each call http.Get adds one to it,
no other call changes it. -/
def countingEnv {W : Type} (E : Env W) : Env (W × Nat) where
  httpGet := fun url s => ((E.httpGet url s.1).1, ((E.httpGet url s.1).2, s.2 + 1))
  newRequestFails := E.newRequestFails
  clientDo := fun method url body s =>
    ((E.clientDo method url body s.1).1, ((E.clientDo method url body s.1).2, s.2))
  readFile := fun path s => ((E.readFile path s.1).1, ((E.readFile path s.1).2, s.2))
  osRemove := fun path s => ((E.osRemove path s.1).1, ((E.osRemove path s.1).2, s.2))
  osCreate := fun path s => ((E.osCreate path s.1).1, ((E.osCreate path s.1).2, s.2))
  ioCopy := fun path resp s => ((E.ioCopy path resp s.1).1, ((E.ioCopy path resp s.1).2, s.2))
  osChmod := fun path mode s =>
    ((E.osChmod path mode s.1).1, ((E.osChmod path mode s.1).2, s.2))
  cmdOutput := fun app args s =>
    ((E.cmdOutput app args s.1).1, ((E.cmdOutput app args s.1).2, s.2))
  sleep := fun seconds s => (E.sleep seconds s.1, s.2)
  unmarshalPackage := E.unmarshalPackage
  unmarshalPeers := E.unmarshalPeers
  unmarshalStatus := E.unmarshalStatus
  unmarshalForging := E.unmarshalForging
  unmarshalDelegates := E.unmarshalDelegates
  sortSlice := E.sortSlice

/-- An insertion sort, as one sort.Slice that keeps its contract. -/
def insertionSorter : SliceSorter where
  sort := fun less xs => List.insertionSort (fun a b => less b a = false) xs
  perm := fun less xs => List.perm_insertionSort (fun a b => less b a = false) xs
  sorted := fun less xs htrans htotal => by
    haveI : IsTotal _ (fun a b => less b a = false) := ⟨htotal⟩
    haveI : IsTrans _ (fun a b => less b a = false) := ⟨htrans⟩
    exact List.sorted_insertionSort (fun a b => less b a = false) xs

/-- The answers of the outside in a worked example. -/
structure Scenario where
  /-- The content of package.json. -/
  manifest : String
  /-- What json.Unmarshal makes of that content. -/
  package : Package × Option String
  /-- The body of latest.txt. -/
  latest : String
  localHeight : Int
  peers : List Peer
  missedBlocks : Int
  forging : Bool
  /-- How many probes of the node fail after a child process has run. -/
  restartProbes : Nat
deriving Repr

/-- The configuration of the worked examples. -/
def testConfig : Configuration where
  NodeURL := "http://localhost:4000"
  PublicKey := "key"
  Password := "secret"
  Delegate := "delegate"
  HomePath := "/home/lisk"
  InstallationPath := "/home/lisk/lisk-test"
  PublicNodeURL := "http://node.example"

/-- The outside of a worked example. The world is the number of coming requests for
the node status that fail. -/
def scenarioEnv (sc : Scenario) : Env Nat where
  httpGet := fun url n =>
    if url = testConfig.NodeURL ++ "/api/node/status" ∧ 0 < n then
      (Except.error "connection refused", n - 1)
    else if url = "https://downloads.lisk.io/lisk/test/latest.txt" then
      (Except.ok ⟨"200 OK", sc.latest, none⟩, n)
    else
      (Except.ok ⟨"200 OK", "", none⟩, n)
  newRequestFails := fun _ _ => false
  clientDo := fun _ _ _ n => (Except.ok ⟨"200 OK", "", none⟩, n)
  readFile := fun _ n => (Except.ok sc.manifest, n)
  osRemove := fun _ n => (none, n)
  osCreate := fun _ n => (none, n)
  ioCopy := fun _ _ n => (none, n)
  osChmod := fun _ _ n => (none, n)
  cmdOutput := fun _ _ _ => (Except.ok "", sc.restartProbes)
  sleep := fun _ n => n
  unmarshalPackage := fun _ => sc.package
  unmarshalPeers := fun _ => (sc.peers, none)
  unmarshalStatus := fun _ => (⟨"", sc.localHeight⟩, none)
  unmarshalForging := fun _ => ([⟨sc.forging⟩], none)
  unmarshalDelegates := fun _ => ([⟨sc.missedBlocks⟩], none)
  sortSlice := insertionSorter

/-- Scenario C and D of the specification in one: local height 100, peers at 98, 150
and 99, 6 missed blocks, equal versions. -/
def scenarioD : Scenario where
  manifest := "\x7b\"version\": \"1.0.0\"\x7d"
  package := (⟨"1.0.0"⟩, none)
  latest := "1.0.0\n"
  localHeight := 100
  peers := [⟨"10.0.0.1", 98⟩, ⟨"10.0.0.2", 150⟩, ⟨"10.0.0.3", 99⟩]
  missedBlocks := 6
  forging := true
  restartProbes := 2

/-- A node that answers the forging call with forging false. -/
def scenarioNotForging : Scenario := { scenarioD with forging := false }

/-- A package.json that is no JSON: json.Unmarshal reports a syntax error and leaves
the Package as it was. -/
def scenarioMalformed : Scenario :=
  { scenarioD with
    manifest := "not json"
    package := (⟨""⟩, some "invalid character o in literal null (expecting u)") }

/-- A manifest and a latest.txt that hold the same text, with a blank before the version. -/
def scenarioBlank : Scenario :=
  { scenarioD with
    manifest := "\x7b\"version\": \" 1.0.0\"\x7d"
    package := (⟨" 1.0.0"⟩, none)
    latest := " 1.0.0" }

/-- A node that reports the largest int as its height, next to one peer at height 0. -/
def scenarioMaxHeight : Scenario :=
  { scenarioD with
    localHeight := 9223372036854775807
    peers := [⟨"10.0.0.1", 0⟩]
    missedBlocks := 0 }

/-- Scenario B of the specification: local version 1.0.0, latest 1.0.1. -/
def scenarioB : Scenario :=
  { scenarioD with
    latest := "1.0.1\n"
    missedBlocks := 5 }

/-! ## Lemmas on Do -/

section DoLemmas

variable {σ ε : Type}

theorem DoLoop_stop (fn : RetryFunc σ ε) (a c : Nat) (s : σ) (h : stops (fn a s).1 = true) :
    DoLoop fn a c s = (⟨(fn a s).1.2.map GoError.fromWork, c + 1⟩, (fn a s).2) := by
  rw [DoLoop]
  rcases hf : fn a s with ⟨⟨cont, err⟩, s1⟩
  rw [hf] at h
  simp only [stops] at h
  simp [h]

theorem DoLoop_exhaust (fn : RetryFunc σ ε) (a c : Nat) (s : σ) (h : stops (fn a s).1 = false)
    (ha : maxRetries < a + 1) :
    DoLoop fn a c s = (⟨some (GoError.errorsNew "Exceeded max retry limit"), c + 1⟩, (fn a s).2) := by
  rw [DoLoop]
  rcases hf : fn a s with ⟨⟨cont, err⟩, s1⟩
  rw [hf] at h
  simp only [stops] at h
  simp [h, ha]

theorem DoLoop_again (fn : RetryFunc σ ε) (a c : Nat) (s : σ) (h : stops (fn a s).1 = false)
    (ha : a + 1 ≤ maxRetries) :
    DoLoop fn a c s = DoLoop fn (a + 1) (c + 1) (fn a s).2 := by
  rw [DoLoop]
  rcases hf : fn a s with ⟨⟨cont, err⟩, s1⟩
  rw [hf] at h
  simp only [stops] at h
  have : ¬ maxRetries < a + 1 := by omega
  simp [h, this]

theorem report_eq (fn : RetryFunc σ ε) (s : σ) (n : Nat) :
    (fn (n + 1) (stateBefore fn s n)).1 = report fn s (n + 1) := rfl

theorem stateBefore_succ (fn : RetryFunc σ ε) (s : σ) (n : Nat) :
    (fn (n + 1) (stateBefore fn s n)).2 = stateBefore fn s (n + 1) := rfl

/-- The loop of Do, entered at attempt a+1 after a invocations that all asked for another
try, ends at the first invocation n whose report stops it, or at n = maxRetries. -/
theorem DoLoop_spec (fn : RetryFunc σ ε) (s : σ) :
    ∀ (m a : Nat), a + m + 1 = maxRetries →
      (∀ i, 1 ≤ i → i ≤ a → stops (report fn s i) = false) →
      ∃ n, a < n ∧ n ≤ maxRetries ∧
        (∀ i, 1 ≤ i → i < n → stops (report fn s i) = false) ∧
        (stops (report fn s n) = false → n = maxRetries) ∧
        DoLoop fn (a + 1) a (stateBefore fn s a)
          = (⟨errorAfter (report fn s n), n⟩, stateBefore fn s n) := by
  intro m
  induction m with
  | zero =>
    intro a ha hprev
    refine ⟨a + 1, by omega, by omega, ?_, ?_, ?_⟩
    · intro i h1 h2
      exact hprev i h1 (by omega)
    · intro _
      omega
    · cases hs : stops (report fn s (a + 1)) with
      | true =>
        rw [DoLoop_stop fn (a + 1) a _ (by rw [report_eq]; exact hs)]
        simp [errorAfter, hs, report_eq, stateBefore_succ]
      | false =>
        rw [DoLoop_exhaust fn (a + 1) a _ (by rw [report_eq]; exact hs) (by omega)]
        simp [errorAfter, hs, stateBefore_succ]
  | succ m ih =>
    intro a ha hprev
    cases hs : stops (report fn s (a + 1)) with
    | true =>
      refine ⟨a + 1, by omega, by omega, ?_, ?_, ?_⟩
      · intro i h1 h2
        exact hprev i h1 (by omega)
      · intro h
        rw [hs] at h
        cases h
      · rw [DoLoop_stop fn (a + 1) a _ (by rw [report_eq]; exact hs)]
        simp [errorAfter, hs, report_eq, stateBefore_succ]
    | false =>
      have hprev2 : ∀ i, 1 ≤ i → i ≤ a + 1 → stops (report fn s i) = false := by
        intro i h1 h2
        rcases Nat.lt_or_ge i (a + 1) with h | h
        · exact hprev i h1 (by omega)
        · have : i = a + 1 := by omega
          rw [this]
          exact hs
      obtain ⟨n, hn1, hn2, hn3, hn4, hn5⟩ := ih (a + 1) (by omega) hprev2
      refine ⟨n, by omega, hn2, hn3, hn4, ?_⟩
      rw [DoLoop_again fn (a + 1) a _ (by rw [report_eq]; exact hs) (by omega)]
      rw [stateBefore_succ]
      exact hn5

/-- Do ends at the first invocation n whose report stops the loop, or at n = maxRetries. -/
theorem Do_spec (fn : RetryFunc σ ε) (s : σ) :
    ∃ n, 1 ≤ n ∧ n ≤ maxRetries ∧
      (∀ i, 1 ≤ i → i < n → stops (report fn s i) = false) ∧
      (stops (report fn s n) = false → n = maxRetries) ∧
      Do fn s = (⟨errorAfter (report fn s n), n⟩, stateBefore fn s n) := by
  obtain ⟨n, h1, h2, h3, h4, h5⟩ :=
    DoLoop_spec fn s (maxRetries - 1) 0 (by simp [maxRetries]) (by intro i h1 h2; omega)
  exact ⟨n, by omega, h2, h3, h4, h5⟩

/-- Do, when the invocation n is the first whose report stops the loop, or is number maxRetries. -/
theorem Do_eq_of_first (fn : RetryFunc σ ε) (s : σ) (n : Nat) (h1 : 1 ≤ n) (h2 : n ≤ maxRetries)
    (hbefore : ∀ i, 1 ≤ i → i < n → stops (report fn s i) = false)
    (hlast : stops (report fn s n) = false → n = maxRetries) :
    Do fn s = (⟨errorAfter (report fn s n), n⟩, stateBefore fn s n) := by
  obtain ⟨n', g1, g2, g3, g4, g5⟩ := Do_spec fn s
  have : n' = n := by
    rcases Nat.lt_trichotomy n' n with h | h | h
    · have a := hbefore n' g1 h
      have := g4 a
      omega
    · exact h
    · have a := g3 n h1 h
      have := hlast a
      omega
  rw [← this]
  exact g5

end DoLemmas

/-! ## Do -/

/-- C2: a work function that asks for another try with an error on its first k invocations
and reports no error on invocation k+1 makes Do return nil after exactly k+1 invocations when
k < 50, and the error of the exceeded limit after exactly 50 invocations when k ≥ 50. -/
theorem Do_fails_then_succeeds {σ ε : Type} (fn : RetryFunc σ ε) (s : σ) (k : Nat)
    (hfail : ∀ i, 1 ≤ i → i ≤ k → (report fn s i).1 = true ∧ (report fn s i).2 ≠ none)
    (hok : (report fn s (k + 1)).2 = none) :
    (k < 50 → (Do fn s).1 = ⟨none, k + 1⟩) ∧
    (50 ≤ k → (Do fn s).1 = ⟨some (GoError.errorsNew "Exceeded max retry limit"), 50⟩) := by
  have hgo : ∀ i, 1 ≤ i → i ≤ k → stops (report fn s i) = false := by
    intro i h1 h2
    obtain ⟨a, b⟩ := hfail i h1 h2
    cases hb : (report fn s i).2 with
    | none => exact absurd hb b
    | some e => simp [stops, a, hb]
  have hstop : stops (report fn s (k + 1)) = true := by simp [stops, hok]
  constructor
  · intro hk
    rw [Do_eq_of_first fn s (k + 1) (by omega) (by simp only [maxRetries]; omega)
      (fun i h1 h2 => hgo i h1 (by omega)) (by intro h; rw [hstop] at h; cases h)]
    simp [errorAfter, hstop, hok]
  · intro hk
    rw [Do_eq_of_first fn s 50 (by omega) (by simp [maxRetries])
      (fun i h1 h2 => hgo i h1 (by omega)) (by intro _; rfl)]
    simp [errorAfter, hgo 50 (by omega) hk]

/-- C2, at a work function that fails twice and at one that fails sixty times. -/
theorem Do_fails_then_succeeds_witness :
    ((2 < 50 → (Do (failsFirst 2) ()).1 = ⟨none, 2 + 1⟩) ∧
      (50 ≤ 2 → (Do (failsFirst 2) ()).1
        = ⟨some (GoError.errorsNew "Exceeded max retry limit"), 50⟩)) ∧
    ((60 < 50 → (Do (failsFirst 60) ()).1 = ⟨none, 60 + 1⟩) ∧
      (50 ≤ 60 → (Do (failsFirst 60) ()).1
        = ⟨some (GoError.errorsNew "Exceeded max retry limit"), 50⟩)) :=
  ⟨Do_fails_then_succeeds (failsFirst 2) () 2
      (by intro i h1 h2; simp [report, failsFirst, h2]) (by simp [report, failsFirst]),
    Do_fails_then_succeeds (failsFirst 60) () 60
      (by intro i h1 h2; simp [report, failsFirst, h2]) (by simp [report, failsFirst])⟩

/-- C8, as the code has it: Do returns nil exactly when the last invocation of the work
function reported no error; a failure returned after a report with retry false is the error
of that report; a failure returned after a report with retry true comes at invocation 50 and
is the made error Exceeded max retry limit, whatever the work function reported. -/
theorem Do_result_of_last_report {σ ε : Type} (fn : RetryFunc σ ε) (s : σ) :
    ∃ n, 1 ≤ n ∧ n ≤ 50 ∧ (Do fn s).1.calls = n ∧
      ((Do fn s).1.err = none ↔ (report fn s n).2 = none) ∧
      (∀ e, report fn s n = (false, some e) → (Do fn s).1.err = some (GoError.fromWork e)) ∧
      (∀ e, report fn s n = (true, some e) →
        n = 50 ∧ (Do fn s).1.err = some (GoError.errorsNew "Exceeded max retry limit")) := by
  obtain ⟨n, h1, h2, _, h4, h5⟩ := Do_spec fn s
  refine ⟨n, h1, h2, by rw [h5], ?_, ?_, ?_⟩
  · rw [h5]
    rcases hr : report fn s n with ⟨cont, err⟩
    cases cont <;> cases err <;> simp [errorAfter, stops]
  · intro e he
    rw [h5]
    simp [errorAfter, stops, he]
  · intro e he
    rw [h5]
    have : stops (report fn s n) = false := by simp [stops, he]
    exact ⟨h4 this, by simp [errorAfter, this]⟩

/-- C8 as stated fails: when the work function reports the error boom on every invocation,
Do returns after 50 invocations an error that is not boom and whose text does not name it. -/
theorem Do_ceiling_drops_last_error :
    (Do alwaysFailing ()).1.calls = 50 ∧
    (report alwaysFailing () 50).2 = some "boom" ∧
    (Do alwaysFailing ()).1.err ≠ some (GoError.fromWork "boom") ∧
    (Do alwaysFailing ()).1.err.map GoError.Error = some "Exceeded max retry limit" := by
  have h := Do_eq_of_first alwaysFailing () 50 (by omega) (by simp [maxRetries])
    (by intro i _ _; simp [report, alwaysFailing, stops]) (by intro _; rfl)
  rw [h]
  simp [report, alwaysFailing, errorAfter, stops, GoError.Error]

/-! ## waitUntilAPIReady -/

theorem readinessWork_fst {W : Type} (E : Env W) (config : Configuration) (w : W) (a : Nat) :
    (readinessWork E config a w).1 = (decide (a < maxAttempts), (isAPIReady E config w).1.2) := by
  simp only [readinessWork]

theorem readinessWork_snd_of_error {W : Type} (E : Env W) (config : Configuration) (w : W)
    (a : Nat) (h : (isAPIReady E config w).1.2 ≠ none) :
    (readinessWork E config a w).2
      = E.sleep delayBetweenAttemptsInSeconds (isAPIReady E config w).2 := by
  simp only [readinessWork]
  cases he : (isAPIReady E config w).1.2 with
  | none => exact absurd he h
  | some e => simp

theorem readinessWork_snd_of_ok {W : Type} (E : Env W) (config : Configuration) (w : W)
    (a : Nat) (h : (isAPIReady E config w).1.2 = none) :
    (readinessWork E config a w).2 = (isAPIReady E config w).2 := by
  simp only [readinessWork, h]
  simp

/-- While the probes fail, the closure of waitUntilAPIReady leaves the worlds of afterFailures. -/
theorem stateBefore_of_failures {W : Type} (E : Env W) (config : Configuration) (w : W) :
    ∀ i, (∀ k, 1 ≤ k → k ≤ i → probeError E config w k ≠ none) →
      stateBefore (readinessWork E config) w i = afterFailures E config w i := by
  intro i
  induction i with
  | zero => intro _; rfl
  | succ i ih =>
    intro h
    have hi := ih (fun k h1 h2 => h k h1 (by omega))
    have hp : (isAPIReady E config (afterFailures E config w i)).1.2 ≠ none := by
      have := h (i + 1) (by omega) (by omega)
      simpa [probeError] using this
    show (readinessWork E config (i + 1) (stateBefore (readinessWork E config) w i)).2
      = afterFailures E config w (i + 1)
    rw [hi, readinessWork_snd_of_error E config _ _ hp]
    rfl

theorem report_of_failures {W : Type} (E : Env W) (config : Configuration) (w : W) (i : Nat)
    (h : ∀ k, 1 ≤ k → k < i → probeError E config w k ≠ none) :
    report (readinessWork E config) w i = (decide (i < maxAttempts), probeError E config w i) := by
  show (readinessWork E config i (stateBefore (readinessWork E config) w (i - 1))).1 = _
  rw [stateBefore_of_failures E config w (i - 1) (fun k h1 h2 => h k h1 (by omega)),
    readinessWork_fst]
  rfl

theorem waitUntilAPIReady_of_Do {W : Type} (E : Env W) (config : Configuration) (w w1 : W)
    (r : DoResult String) (h : Do (readinessWork E config) w = (r, w1)) :
    waitUntilAPIReady E config w
      = (match r.err with
          | some doErr => Except.error (Panic.text doErr.Error)
          | none => Except.ok (), w1) := by
  simp only [waitUntilAPIReady, h]
  cases r.err <;> rfl

/-- When probe j is the first without an error, waitUntilAPIReady returns in the world
that probe leaves. -/
theorem waitUntilAPIReady_first_success {W : Type} (E : Env W) (config : Configuration) (w : W)
    (j : Nat) (hj1 : 1 ≤ j) (hj2 : j ≤ 10)
    (hbefore : ∀ i, 1 ≤ i → i < j → probeError E config w i ≠ none)
    (hj : probeError E config w j = none) :
    waitUntilAPIReady E config w
      = (Except.ok (), (isAPIReady E config (afterFailures E config w (j - 1))).2) := by
  have hrep : ∀ i, 1 ≤ i → i ≤ j →
      report (readinessWork E config) w i = (decide (i < maxAttempts), probeError E config w i) :=
    fun i _ h2 => report_of_failures E config w i (fun k h3 h4 => hbefore k h3 (by omega))
  have hstop : stops (report (readinessWork E config) w j) = true := by
    rw [hrep j hj1 (le_refl j)]
    simp [stops, hj]
  have hgo : ∀ i, 1 ≤ i → i < j → stops (report (readinessWork E config) w i) = false := by
    intro i h1 h2
    rw [hrep i h1 (by omega)]
    cases hp : probeError E config w i with
    | none => exact absurd hp (hbefore i h1 h2)
    | some e =>
      have : i < maxAttempts := by simp only [maxAttempts]; omega
      simp [stops, this]
  have h := Do_eq_of_first (readinessWork E config) w j hj1 (by simp only [maxRetries]; omega)
    hgo (by intro h; rw [hstop] at h; cases h)
  rw [waitUntilAPIReady_of_Do E config w _ _ h]
  have herr : errorAfter (report (readinessWork E config) w j) = none := by
    simp only [errorAfter, hstop, if_true]
    rw [hrep j hj1 (le_refl j)]
    simp [hj]
  have hw : stateBefore (readinessWork E config) w j
      = (isAPIReady E config (afterFailures E config w (j - 1))).2 := by
    obtain ⟨m, rfl⟩ : ∃ m, j = m + 1 := ⟨j - 1, by omega⟩
    show (readinessWork E config (m + 1) (stateBefore (readinessWork E config) w m)).2 = _
    rw [stateBefore_of_failures E config w m (fun k h1 h2 => hbefore k h1 (by omega))]
    exact readinessWork_snd_of_ok E config _ _ (by simpa [probeError] using hj)
  simp only [herr, hw]

/-- When the first ten probes all fail, waitUntilAPIReady panics with the error of the
tenth, in the world the tenth delay leaves. -/
theorem waitUntilAPIReady_all_fail {W : Type} (E : Env W) (config : Configuration) (w : W)
    (hall : ∀ i, 1 ≤ i → i ≤ 10 → probeError E config w i ≠ none) :
    ∃ e, probeError E config w 10 = some e ∧
      waitUntilAPIReady E config w
        = (Except.error (Panic.text e), afterFailures E config w 10) := by
  have hrep : ∀ i, 1 ≤ i → i ≤ 10 →
      report (readinessWork E config) w i = (decide (i < maxAttempts), probeError E config w i) :=
    fun i _ h2 => report_of_failures E config w i (fun k h3 h4 => hall k h3 (by omega))
  have hstop : stops (report (readinessWork E config) w 10) = true := by
    rw [hrep 10 (by omega) (le_refl 10)]
    simp [stops, maxAttempts]
  have hgo : ∀ i, 1 ≤ i → i < 10 → stops (report (readinessWork E config) w i) = false := by
    intro i h1 h2
    rw [hrep i h1 (by omega)]
    cases hp : probeError E config w i with
    | none => exact absurd hp (hall i h1 (by omega))
    | some e =>
      have : i < maxAttempts := by simp only [maxAttempts]; omega
      simp [stops, this]
  have h := Do_eq_of_first (readinessWork E config) w 10 (by omega) (by simp [maxRetries])
    hgo (by intro h; rw [hstop] at h; cases h)
  cases hp : probeError E config w 10 with
  | none => exact absurd hp (hall 10 (by omega) (by omega))
  | some e =>
    refine ⟨e, rfl, ?_⟩
    rw [waitUntilAPIReady_of_Do E config w _ _ h]
    have herr : errorAfter (report (readinessWork E config) w 10)
        = some (GoError.fromWork e) := by
      simp only [errorAfter, hstop, if_true]
      rw [hrep 10 (by omega) (le_refl 10)]
      simp [hp]
    rw [stateBefore_of_failures E config w 10 hall]
    simp only [herr, GoError.Error]

theorem isAPIReady_counting {W : Type} (E : Env W) (config : Configuration) (w : W) (c : Nat) :
    isAPIReady (countingEnv E) config (w, c)
      = ((isAPIReady E config w).1, ((isAPIReady E config w).2, c + 1)) := by
  simp only [isAPIReady, countingEnv]
  rcases E.httpGet (config.NodeURL ++ "/api/node/status") w with ⟨r | r, w1⟩ <;> rfl

theorem afterFailures_counting {W : Type} (E : Env W) (config : Configuration) (w : W)
    (c : Nat) : ∀ i, afterFailures (countingEnv E) config (w, c) i
      = (afterFailures E config w i, c + i) := by
  intro i
  induction i with
  | zero => rfl
  | succ i ih =>
    show (countingEnv E).sleep delayBetweenAttemptsInSeconds
      (isAPIReady (countingEnv E) config (afterFailures (countingEnv E) config (w, c) i)).2 = _
    rw [ih, isAPIReady_counting]
    rfl

theorem probeError_counting {W : Type} (E : Env W) (config : Configuration) (w : W)
    (c i : Nat) : probeError (countingEnv E) config (w, c) i = probeError E config w i := by
  simp only [probeError, afterFailures_counting, isAPIReady_counting]

/-- C6: waitUntilAPIReady makes at most 10 probes isAPIReady, each one call http.Get: in an
outside that counts the calls http.Get, it adds at most 10 to the counter. When probe j
(1 ≤ j ≤ 10) is the first without an error, it returns in the world that probe leaves, after
j-1 failed probes each followed by the delay, and has added exactly j to the counter. When
the first 10 probes all fail, it panics with the error of the tenth in the world the tenth
delay leaves, and has added exactly 10 to the counter. -/
theorem waitUntilAPIReady_bounded {W : Type} (E : Env W) (config : Configuration) (w : W)
    (c : Nat) :
    (waitUntilAPIReady (countingEnv E) config (w, c)).2.2 ≤ c + 10 ∧
    (∀ j, 1 ≤ j → j ≤ 10 →
      (∀ i, 1 ≤ i → i < j → probeError E config w i ≠ none) →
      probeError E config w j = none →
      waitUntilAPIReady E config w
        = (Except.ok (), (isAPIReady E config (afterFailures E config w (j - 1))).2) ∧
      waitUntilAPIReady (countingEnv E) config (w, c)
        = (Except.ok (), ((isAPIReady E config (afterFailures E config w (j - 1))).2, c + j))) ∧
    ((∀ i, 1 ≤ i → i ≤ 10 → probeError E config w i ≠ none) →
      ∃ e, probeError E config w 10 = some e ∧
        waitUntilAPIReady E config w
          = (Except.error (Panic.text e), afterFailures E config w 10) ∧
        waitUntilAPIReady (countingEnv E) config (w, c)
          = (Except.error (Panic.text e), (afterFailures E config w 10, c + 10))) := by
  have hsucc : ∀ j, 1 ≤ j → j ≤ 10 →
      (∀ i, 1 ≤ i → i < j → probeError E config w i ≠ none) →
      probeError E config w j = none →
      waitUntilAPIReady (countingEnv E) config (w, c)
        = (Except.ok (), ((isAPIReady E config (afterFailures E config w (j - 1))).2, c + j)) := by
    intro j hj1 hj2 hbefore hj
    rw [waitUntilAPIReady_first_success (countingEnv E) config (w, c) j hj1 hj2
      (fun i h1 h2 => by rw [probeError_counting]; exact hbefore i h1 h2)
      (by rw [probeError_counting]; exact hj),
      afterFailures_counting, isAPIReady_counting]
    have : c + (j - 1) + 1 = c + j := by omega
    rw [this]
  have hfail : (∀ i, 1 ≤ i → i ≤ 10 → probeError E config w i ≠ none) →
      ∃ e, probeError E config w 10 = some e ∧
        waitUntilAPIReady (countingEnv E) config (w, c)
          = (Except.error (Panic.text e), (afterFailures E config w 10, c + 10)) := by
    intro hall
    obtain ⟨e, he, h⟩ := waitUntilAPIReady_all_fail (countingEnv E) config (w, c)
      (fun i h1 h2 => by rw [probeError_counting]; exact hall i h1 h2)
    rw [probeError_counting] at he
    rw [afterFailures_counting] at h
    exact ⟨e, he, h⟩
  refine ⟨?_, ?_, ?_⟩
  · by_cases hall : ∀ i, 1 ≤ i → i ≤ 10 → probeError E config w i ≠ none
    · obtain ⟨e, _, h⟩ := hfail hall
      rw [h]
    · have hex : ∃ j, 1 ≤ j ∧ j ≤ 10 ∧ probeError E config w j = none := by
        by_contra hno
        apply hall
        intro i h1 h2 hi
        exact hno ⟨i, h1, h2, hi⟩
      obtain ⟨h1, h2, h3⟩ := Nat.find_spec hex
      have hmin : ∀ i, 1 ≤ i → i < Nat.find hex → probeError E config w i ≠ none := by
        intro i hi1 hi2 hi
        exact Nat.find_min hex hi2 ⟨hi1, by omega, hi⟩
      rw [hsucc (Nat.find hex) h1 h2 hmin h3]
      show c + Nat.find hex ≤ c + 10
      omega
  · intro j hj1 hj2 hbefore hj
    exact ⟨waitUntilAPIReady_first_success E config w j hj1 hj2 hbefore hj,
      hsucc j hj1 hj2 hbefore hj⟩
  · intro hall
    obtain ⟨e, he, h⟩ := waitUntilAPIReady_all_fail E config w hall
    obtain ⟨e2, he2, h2⟩ := hfail hall
    rw [he] at he2
    cases he2
    exact ⟨e, he, h, h2⟩

/-- C6, at a node whose first two probes fail and at one whose first ten probes fail. -/
theorem waitUntilAPIReady_bounded_witness :
    (waitUntilAPIReady (scenarioEnv scenarioD) testConfig 2
        = (Except.ok (), (isAPIReady (scenarioEnv scenarioD) testConfig
            (afterFailures (scenarioEnv scenarioD) testConfig 2 (3 - 1))).2) ∧
      waitUntilAPIReady (countingEnv (scenarioEnv scenarioD)) testConfig (2, 0)
        = (Except.ok (), ((isAPIReady (scenarioEnv scenarioD) testConfig
            (afterFailures (scenarioEnv scenarioD) testConfig 2 (3 - 1))).2, 0 + 3))) ∧
    (∃ e, probeError (scenarioEnv scenarioD) testConfig 10 10 = some e ∧
        waitUntilAPIReady (scenarioEnv scenarioD) testConfig 10
          = (Except.error (Panic.text e),
              afterFailures (scenarioEnv scenarioD) testConfig 10 10) ∧
        waitUntilAPIReady (countingEnv (scenarioEnv scenarioD)) testConfig (10, 0)
          = (Except.error (Panic.text e),
              (afterFailures (scenarioEnv scenarioD) testConfig 10 10, 0 + 10))) :=
  ⟨(waitUntilAPIReady_bounded (scenarioEnv scenarioD) testConfig 2 0).2.1 3 (by decide)
      (by decide) (by intro i h1 h2; interval_cases i <;> decide) (by decide),
    (waitUntilAPIReady_bounded (scenarioEnv scenarioD) testConfig 10 0).2.2
      (by intro i h1 h2; interval_cases i <;> decide)⟩

/-! ## The run of an Act -/

section ActLemmas

variable {σ α β : Type}

theorem Act.bind_ok (x : Act σ α) (f : α → Act σ β) (s s1 : σ) (a : α)
    (h : x s = (Except.ok a, s1)) : (x >>= f) s = f a s1 := by
  show Act.andThen x f s = f a s1
  simp [Act.andThen, h]

theorem Act.bind_error (x : Act σ α) (f : α → Act σ β) (s s1 : σ) (e : Panic)
    (h : x s = (Except.error e, s1)) : (x >>= f) s = (Except.error e, s1) := by
  show Act.andThen x f s = (Except.error e, s1)
  simp [Act.andThen, h]

theorem Act.pure_run (a : α) (s : σ) : (pure a : Act σ α) s = (Except.ok a, s) := rfl

theorem Act.ask_run (f : σ → α × σ) (s : σ) : Act.ask f s = (Except.ok (f s).1, (f s).2) := rfl

end ActLemmas

/-! ## enableForging -/

/-- C7: when the answer to the forging call decodes to a first data entry with forging
false, enableForging panics; and it returns only when the answer decodes without
error to a first data entry with forging true. -/
theorem enableForging_confirms {W : Type} (E : Env W) (config : Configuration) (w : W) :
    (∀ res w1 nodes rest uerr,
      E.newRequestFails "PUT" (config.NodeURL ++ "/api/node/status/forging") = false →
      E.clientDo "PUT" (config.NodeURL ++ "/api/node/status/forging")
        ("\x7b\"forging\": true, \"publicKey\": \"" ++ config.PublicKey ++
          "\", \"password\": \"" ++ config.Password ++ "\"\x7d") w = (Except.ok res, w1) →
      E.unmarshalForging res.Body = (nodes, uerr) →
      nodes = ⟨false⟩ :: rest →
      enableForging E config w
        = (Except.error (match uerr with
            | some unmarshalErr => Panic.error unmarshalErr
            | none => Panic.text "Could not enable forging"), w1)) ∧
    (∀ w1, enableForging E config w = (Except.ok (), w1) →
      ∃ res rest,
        E.clientDo "PUT" (config.NodeURL ++ "/api/node/status/forging")
          ("\x7b\"forging\": true, \"publicKey\": \"" ++ config.PublicKey ++
            "\", \"password\": \"" ++ config.Password ++ "\"\x7d") w = (Except.ok res, w1) ∧
        E.unmarshalForging res.Body = (⟨true⟩ :: rest, none)) := by
  constructor
  · intro res w1 nodes rest uerr hreq hdo hun hnodes
    subst hnodes
    unfold enableForging
    simp only [hreq, Bool.false_eq_true, if_false]
    rw [Act.bind_ok _ _ w w1 (Except.ok res) (by rw [Act.ask_run, hdo])]
    simp only [hun]
    cases uerr <;> rfl
  · intro w1 h
    unfold enableForging at h
    cases hreq : E.newRequestFails "PUT" (config.NodeURL ++ "/api/node/status/forging") with
    | true =>
      simp only [hreq, if_true] at h
      cases h
    | false =>
      simp only [hreq, Bool.false_eq_true, if_false] at h
      rcases hdo : E.clientDo "PUT" (config.NodeURL ++ "/api/node/status/forging")
        ("\x7b\"forging\": true, \"publicKey\": \"" ++ config.PublicKey ++
          "\", \"password\": \"" ++ config.Password ++ "\"\x7d") w with ⟨r, w2⟩
      rw [Act.bind_ok _ _ w w2 r (by rw [Act.ask_run, hdo])] at h
      cases r with
      | error e => cases h
      | ok res =>
        simp only at h
        rcases hun : E.unmarshalForging res.Body with ⟨nodes, uerr⟩
        rw [hun] at h
        cases uerr with
        | some e => cases h
        | none =>
          cases nodes with
          | nil => cases h
          | cons node rest =>
            rcases node with ⟨f⟩
            cases f with
            | false => cases h
            | true =>
              simp only [bne_self_eq_false, Bool.false_eq_true, if_false] at h
              have hw : w2 = w1 := by
                have := congrArg Prod.snd h
                simpa [Act.pure_run] using this
              subst hw
              exact ⟨res, rest, rfl, hun⟩

/-- C7, at a node that answers the forging call with forging false. -/
theorem enableForging_confirms_witness :
    enableForging (scenarioEnv scenarioNotForging) testConfig 0
      = (Except.error (Panic.text "Could not enable forging"), 0) :=
  (enableForging_confirms (scenarioEnv scenarioNotForging) testConfig 0).1
    ⟨"200 OK", "", none⟩ 0 [⟨false⟩] [] none rfl rfl rfl rfl

/-! ## publicHeight -/

/-- The result of publicHeight on a slice that is not empty: the Height of one of the
peers, and at most the Height of each. -/
theorem publicHeight_least {W : Type} (E : Env W) (ps : List Peer) (hne : ps ≠ []) :
    ∃ h, publicHeight E ps = Except.ok h ∧ (∃ p ∈ ps, p.Height = h) ∧ ∀ p ∈ ps, h ≤ p.Height := by
  have hperm := E.sortSlice.perm (fun a b : Peer => decide (a.Height < b.Height)) ps
  have hsorted := E.sortSlice.sorted (fun a b : Peer => decide (a.Height < b.Height)) ps
    (by intro a b c h1 h2; simp only [decide_eq_false_iff_not, not_lt] at *; omega)
    (by intro a b; simp only [decide_eq_false_iff_not, not_lt]; omega)
  unfold publicHeight
  cases hs : E.sortSlice.sort (fun a b : Peer => decide (a.Height < b.Height)) ps with
  | nil =>
    rw [hs] at hperm
    exact absurd hperm.symm.eq_nil hne
  | cons p rest =>
    rw [hs] at hperm hsorted
    refine ⟨p.Height, rfl, ⟨p, hperm.subset (List.mem_cons_self p rest), rfl⟩, ?_⟩
    intro q hq
    have hq2 : q ∈ p :: rest := hperm.symm.subset hq
    rcases List.mem_cons.mp hq2 with h | h
    · rw [h]
    · have := (List.pairwise_cons.mp hsorted).1 q h
      simpa using this

/-- C4: on a slice of peers that is not empty, publicHeight returns the least Height in it
(the Height of one of the peers, at most the Height of each), and the same on each
reordering of the slice. The peers at 98, 150 and 99 give 98, and 100+1 < 98 is false. -/
theorem publicHeight_minimum {W : Type} (E : Env W) (ps : List Peer) (hne : ps ≠ []) :
    (∃ h, publicHeight E ps = Except.ok h ∧ (∃ p ∈ ps, p.Height = h) ∧
      (∀ p ∈ ps, h ≤ p.Height) ∧
      ∀ qs : List Peer, qs.Perm ps → publicHeight E qs = Except.ok h) ∧
    (∀ a b c : String, publicHeight E [⟨a, 98⟩, ⟨b, 150⟩, ⟨c, 99⟩] = Except.ok 98 ∧
      ¬ (addInt 100 1 < 98)) := by
  constructor
  · obtain ⟨h, h1, ⟨p, hp, hph⟩, h3⟩ := publicHeight_least E ps hne
    refine ⟨h, h1, ⟨p, hp, hph⟩, h3, ?_⟩
    intro qs hqs
    have hqne : qs ≠ [] := by
      intro hq
      rw [hq] at hqs
      exact hne hqs.symm.eq_nil
    obtain ⟨k, k1, ⟨q, hq, hqk⟩, k3⟩ := publicHeight_least E qs hqne
    have a1 : h ≤ k := by
      rw [← hqk]
      exact h3 q (hqs.subset hq)
    have a2 : k ≤ h := by
      rw [← hph]
      exact k3 p (hqs.symm.subset hp)
    rw [k1]
    congr 1
    omega
  · intro a b c
    obtain ⟨h, h1, ⟨p, hp, hph⟩, h3⟩ :=
      publicHeight_least E [⟨a, 98⟩, ⟨b, 150⟩, ⟨c, 99⟩] (by simp)
    refine ⟨?_, by decide⟩
    rw [h1]
    congr 1
    have b1 := h3 ⟨a, 98⟩ (by simp)
    simp only [List.mem_cons, List.mem_singleton, List.not_mem_nil, or_false] at hp
    rcases hp with hp | hp | hp <;> rw [hp] at hph <;> simp only at hph b1 <;> omega

/-- C4, at the peers of scenario C, sorted by an insertion sort. -/
theorem publicHeight_minimum_witness :
    publicHeight (scenarioEnv scenarioD) [⟨"10.0.0.1", 98⟩, ⟨"10.0.0.2", 150⟩, ⟨"10.0.0.3", 99⟩]
        = Except.ok 98 ∧
      ¬ (addInt 100 1 < 98) :=
  (publicHeight_minimum (scenarioEnv scenarioD)
    [⟨"10.0.0.1", 98⟩, ⟨"10.0.0.2", 150⟩, ⟨"10.0.0.3", 99⟩] (by decide)).2
    "10.0.0.1" "10.0.0.2" "10.0.0.3"

/-! ## needsReload -/

theorem wrapInt_of_range (x : Int) (h1 : minInt ≤ x) (h2 : x ≤ maxInt) : wrapInt x = x := by
  simp only [wrapInt, minInt, maxInt, intBits] at *
  norm_num at *
  omega

/-- What needsReload returns when its calls return: the sum is the sum of Go. -/
theorem needsReload_eq {W : Type} (E : Env W) (config : Configuration) (prev : Int)
    (w w1 w2 w3 : W) (lh ph mb : Int) (ps : List Peer)
    (h1 : localHeight E config w = (Except.ok lh, w1))
    (h2 : publicPeers E config w1 = (Except.ok ps, w2))
    (h3 : publicHeight E ps = Except.ok ph)
    (h4 : missedBlocks E config w2 = (Except.ok mb, w3)) :
    needsReload E config prev w
      = (Except.ok (decide (addInt lh 1 < ph) || decide (mb > prev)),
          if addInt lh 1 < ph then w2 else w3) := by
  unfold needsReload
  rw [Act.bind_ok _ _ w w1 lh h1, Act.bind_ok _ _ w1 w2 ps h2,
    Act.bind_ok _ _ w2 w2 ph (by simp [Act.ofExcept, h3])]
  by_cases hlt : addInt lh 1 < ph
  · simp [hlt, Act.pure_run]
  · simp only [hlt, if_false]
    rw [Act.bind_ok _ _ w2 w3 mb h4]
    simp [Act.pure_run]

/-- C3, as the code has it: when the calls of needsReload return, with a local height
below the largest int and a slice of peers that is not empty, needsReload(prev) is true
exactly when localHeight + 1 < publicHeight(peers) or missedBlocks > prev. -/
theorem needsReload_iff {W : Type} (E : Env W) (config : Configuration) (prev : Int)
    (w w1 w2 w3 : W) (lh mb : Int) (ps : List Peer)
    (h1 : localHeight E config w = (Except.ok lh, w1))
    (h2 : publicPeers E config w1 = (Except.ok ps, w2))
    (hne : ps ≠ [])
    (h4 : missedBlocks E config w2 = (Except.ok mb, w3))
    (hmin : minInt ≤ lh) (hmax : lh < maxInt) :
    ∃ ph verdict, publicHeight E ps = Except.ok ph ∧
      (needsReload E config prev w).1 = Except.ok verdict ∧
      (verdict = true ↔ lh + 1 < ph ∨ mb > prev) ∧
      (lh + 1 < ph → verdict = true) ∧ (mb > prev → verdict = true) ∧
      (¬ lh + 1 < ph → ¬ mb > prev → verdict = false) := by
  obtain ⟨ph, h3, _, _⟩ := publicHeight_least E ps hne
  have hw : addInt lh 1 = lh + 1 := by
    apply wrapInt_of_range
    · omega
    · simp only [maxInt, intBits] at *
      omega
  have hiff : (decide (addInt lh 1 < ph) || decide (mb > prev)) = true
      ↔ lh + 1 < ph ∨ mb > prev := by
    simp [hw]
  refine ⟨ph, _, h3, by rw [needsReload_eq E config prev w w1 w2 w3 lh ph mb ps h1 h2 h3 h4],
    hiff, ?_, ?_, ?_⟩
  · intro h
    exact hiff.mpr (Or.inl h)
  · intro h
    exact hiff.mpr (Or.inr h)
  · intro ha hb
    cases hv : (decide (addInt lh 1 < ph) || decide (mb > prev)) with
    | false => rfl
    | true => rcases hiff.mp hv with h | h
              · exact absurd h ha
              · exact absurd h hb

/-- C3, at scenario D: local height 100, peers at 98, 150 and 99, 6 missed blocks after 5. -/
theorem needsReload_iff_witness :
    ∃ ph verdict, publicHeight (scenarioEnv scenarioD) scenarioD.peers = Except.ok ph ∧
      (needsReload (scenarioEnv scenarioD) testConfig 5 0).1 = Except.ok verdict ∧
      (verdict = true ↔ (100 : Int) + 1 < ph ∨ (6 : Int) > 5) ∧
      ((100 : Int) + 1 < ph → verdict = true) ∧ ((6 : Int) > 5 → verdict = true) ∧
      (¬ (100 : Int) + 1 < ph → ¬ (6 : Int) > 5 → verdict = false) :=
  needsReload_iff (scenarioEnv scenarioD) testConfig 5 0 0 0 0 100 6 scenarioD.peers
    rfl rfl (by decide) rfl (by decide) (by decide)

/-- C3 as stated fails at the largest int: with local height 9223372036854775807, one peer
at height 0 and no missed block, neither condition of the claim holds, and needsReload
is true, since localHeight()+1 wraps around to the smallest int. -/
theorem needsReload_wraps :
    localHeight (scenarioEnv scenarioMaxHeight) testConfig 0
        = (Except.ok 9223372036854775807, 0) ∧
      publicHeight (scenarioEnv scenarioMaxHeight) [⟨"10.0.0.1", 0⟩] = Except.ok 0 ∧
      missedBlocks (scenarioEnv scenarioMaxHeight) testConfig 0 = (Except.ok 0, 0) ∧
      ¬ ((9223372036854775807 : Int) + 1 < 0 ∨ (0 : Int) > 0) ∧
      (needsReload (scenarioEnv scenarioMaxHeight) testConfig 0 0).1 = Except.ok true := by
  refine ⟨rfl, rfl, rfl, by decide, rfl⟩

/-! ## The versions -/

theorem localVersion_eq {W : Type} (E : Env W) (config : Configuration) (w w1 : W) (file : String)
    (h : E.readFile (config.InstallationPath ++ "/package.json") w = (Except.ok file, w1)) :
    localVersion E config w = (Except.ok (E.unmarshalPackage file).1.Version, w1) := by
  unfold localVersion
  rw [Act.bind_ok _ _ w w1 (Except.ok file) (by rw [Act.ask_run, h])]
  rfl

theorem latestVersion_eq {W : Type} (E : Env W) (w w1 : W) (resp : Response)
    (h : E.httpGet "https://downloads.lisk.io/lisk/test/latest.txt" w = (Except.ok resp, w1))
    (hread : resp.readErr = none) :
    latestVersion E w = (Except.ok (TrimSpace resp.Body), w1) := by
  unfold latestVersion
  rw [Act.bind_ok _ _ w w1 (Except.ok resp) (by rw [Act.ask_run, h])]
  simp only [hread]
  rfl

/-- C10, as the code has it: when the manifest is read and latest.txt is fetched,
needsUpdate is the inequality of the version decoded from the manifest and the body of
latest.txt with its leading and trailing white space removed: it is false exactly when
these two are the same string. -/
theorem needsUpdate_trimmed {W : Type} (E : Env W) (config : Configuration) (w w1 w2 : W)
    (file : String) (resp : Response)
    (hfile : E.readFile (config.InstallationPath ++ "/package.json") w = (Except.ok file, w1))
    (hget : E.httpGet "https://downloads.lisk.io/lisk/test/latest.txt" w1 = (Except.ok resp, w2))
    (hread : resp.readErr = none) :
    ∃ verdict, needsUpdate E config w = (Except.ok verdict, w2) ∧
      (verdict = false ↔ (E.unmarshalPackage file).1.Version = TrimSpace resp.Body) ∧
      (verdict = true ↔ (E.unmarshalPackage file).1.Version ≠ TrimSpace resp.Body) := by
  refine ⟨(E.unmarshalPackage file).1.Version != TrimSpace resp.Body, ?_, by simp, by simp⟩
  unfold needsUpdate
  rw [Act.bind_ok _ _ w w1 _ (localVersion_eq E config w w1 file hfile),
    Act.bind_ok _ _ w1 w2 _ (latestVersion_eq E w1 w2 resp hget hread)]
  rfl

/-- C10, at a manifest with version 1.0.0 and a latest.txt that holds 1.0.0 and a newline. -/
theorem needsUpdate_trimmed_witness :
    ∃ verdict, needsUpdate (scenarioEnv scenarioD) testConfig 0 = (Except.ok verdict, 0) ∧
      (verdict = false ↔ "1.0.0" = TrimSpace "1.0.0\n") ∧
      (verdict = true ↔ "1.0.0" ≠ TrimSpace "1.0.0\n") :=
  needsUpdate_trimmed (scenarioEnv scenarioD) testConfig 0 0 0
    "\x7b\"version\": \"1.0.0\"\x7d" ⟨"200 OK", "1.0.0\n", none⟩ rfl rfl rfl

/-- C10 as stated fails both ways: a manifest version 1.0.0 and a delivered 1.0.0 with a
newline are distinct strings, and needsUpdate is false; a manifest version and a delivered
string that are both a blank and 1.0.0 are equal strings, and needsUpdate is true. -/
theorem needsUpdate_not_plain_inequality :
    (localVersion (scenarioEnv scenarioD) testConfig 0 = (Except.ok "1.0.0", 0) ∧
      (scenarioEnv scenarioD).httpGet "https://downloads.lisk.io/lisk/test/latest.txt" 0
        = (Except.ok ⟨"200 OK", "1.0.0\n", none⟩, 0) ∧
      "1.0.0" ≠ "1.0.0\n" ∧
      needsUpdate (scenarioEnv scenarioD) testConfig 0 = (Except.ok false, 0)) ∧
    (localVersion (scenarioEnv scenarioBlank) testConfig 0 = (Except.ok " 1.0.0", 0) ∧
      (scenarioEnv scenarioBlank).httpGet "https://downloads.lisk.io/lisk/test/latest.txt" 0
        = (Except.ok ⟨"200 OK", " 1.0.0", none⟩, 0) ∧
      needsUpdate (scenarioEnv scenarioBlank) testConfig 0 = (Except.ok true, 0)) := by
  refine ⟨⟨rfl, rfl, by decide, rfl⟩, ⟨rfl, rfl, rfl⟩⟩

/-- C9 does not hold of the code: on a package.json that is no JSON, for which
json.Unmarshal reports an error, localVersion returns the empty string, and needsUpdate
gives the verdict true from it. -/
theorem localVersion_malformed_returns :
    (scenarioEnv scenarioMalformed).readFile (testConfig.InstallationPath ++ "/package.json") 0
        = (Except.ok "not json", 0) ∧
      ((scenarioEnv scenarioMalformed).unmarshalPackage "not json").2 ≠ none ∧
      localVersion (scenarioEnv scenarioMalformed) testConfig 0 = (Except.ok "", 0) ∧
      needsUpdate (scenarioEnv scenarioMalformed) testConfig 0 = (Except.ok true, 0) := by
  refine ⟨rfl, by decide, rfl, rfl⟩

/-! ## The loop of main -/

section LoopLemmas

variable {W : Type}

theorem bind_observe_ok {α β : Type} (mk : α → Step) (x : Act W α)
    (f : α → Act (W × List Step) β) (w w1 : W) (tr : List Step) (a : α)
    (h : x w = (Except.ok a, w1)) :
    (observe mk x >>= f) (w, tr) = f a (w1, tr ++ [mk a]) := by
  apply Act.bind_ok
  simp [observe, h]

theorem bind_observe_error {α β : Type} (mk : α → Step) (x : Act W α)
    (f : α → Act (W × List Step) β) (w w1 : W) (tr : List Step) (e : Panic)
    (h : x w = (Except.error e, w1)) :
    (observe mk x >>= f) (w, tr) = (Except.error e, (w1, tr)) := by
  apply Act.bind_error
  simp [observe, h]

/-- A corrective call, the wait and enableForging in a row: either all three return, or
the row ends in a panic after none, one or two of them. -/
theorem recover_run {β : Type} (E : Env W) (config : Configuration) (first : Act W Unit)
    (s1 : Step) (k : Unit → Act (W × List Step) β) (w : W) (tr : List Step) :
    (∃ w1 w2 w3, first w = (Except.ok (), w1) ∧
      waitUntilAPIReady E config w1 = (Except.ok (), w2) ∧
      enableForging E config w2 = (Except.ok (), w3) ∧
      (observe (fun _ => s1) first >>= fun _ =>
        observe (fun _ => Step.waitUntilAPIReady) (waitUntilAPIReady E config) >>= fun _ =>
        observe (fun _ => Step.enableForging) (enableForging E config) >>= k) (w, tr)
        = k () (w3, tr ++ [s1, Step.waitUntilAPIReady, Step.enableForging])) ∨
    (∃ e w1 pre,
      (observe (fun _ => s1) first >>= fun _ =>
        observe (fun _ => Step.waitUntilAPIReady) (waitUntilAPIReady E config) >>= fun _ =>
        observe (fun _ => Step.enableForging) (enableForging E config) >>= k) (w, tr)
        = (Except.error e, (w1, tr ++ pre)) ∧
      (pre = [] ∨ pre = [s1] ∨ pre = [s1, Step.waitUntilAPIReady])) := by
  rcases h1 : first w with ⟨e | u1, w1⟩
  · right
    exact ⟨e, w1, [], by rw [bind_observe_error _ _ _ _ _ _ _ h1]; simp, Or.inl rfl⟩
  · rw [bind_observe_ok _ _ _ _ _ _ _ h1]
    rcases h2 : waitUntilAPIReady E config w1 with ⟨e | u2, w2⟩
    · right
      exact ⟨e, w2, [s1], by rw [bind_observe_error _ _ _ _ _ _ _ h2], Or.inr (Or.inl rfl)⟩
    · rw [bind_observe_ok _ _ _ _ _ _ _ h2]
      rcases h3 : enableForging E config w2 with ⟨e | u3, w3⟩
      · right
        exact ⟨e, w3, [s1, Step.waitUntilAPIReady],
          by rw [bind_observe_error _ _ _ _ _ _ _ h3]; simp, Or.inr (Or.inr rfl)⟩
      · left
        exact ⟨w1, w2, w3, rfl, h2, h3, by rw [bind_observe_ok _ _ _ _ _ _ _ h3]; simp⟩

/-- The end of a pass: the refresh returns b and the pass returns b after the sleep, or
the refresh panics. -/
theorem refreshPart_run (E : Env W) (config : Configuration) (w : W) (tr : List Step) :
    (∃ b w1, missedBlocks E config w = (Except.ok b, w1) ∧
      refreshPart E config (w, tr)
        = (Except.ok b, (E.sleep interval w1, tr ++ [Step.missedBlocks b, Step.sleep interval]))) ∨
    (∃ e w1, refreshPart E config (w, tr) = (Except.error e, (w1, tr))) := by
  unfold refreshPart
  rcases h1 : missedBlocks E config w with ⟨e | b, w1⟩
  · right
    exact ⟨e, w1, by rw [bind_observe_error _ _ _ _ _ _ _ h1]⟩
  · left
    refine ⟨b, w1, rfl, ?_⟩
    rw [bind_observe_ok _ _ _ _ _ _ _ h1,
      bind_observe_ok _ _ _ _ (E.sleep interval w1) _ () (by rw [Act.ask_run])]
    simp [Act.pure_run]

/-- A pass from its reload check on: it runs to its end, or it ends in a panic with a
strict beginning of the calls of a full run made. -/
theorem reloadPart_run (E : Env W) (config : Configuration) (prev : Int) (w : W)
    (tr : List Step) :
    (∃ r b w1 w2 w3, needsReload E config prev w = (Except.ok r, w1) ∧
      missedBlocks E config w2 = (Except.ok b, w3) ∧
      reloadPart E config prev (w, tr)
        = (Except.ok b, (E.sleep interval w3,
            tr ++ ([Step.needsReload prev r] ++
              (if r then [Step.reload, Step.waitUntilAPIReady, Step.enableForging] else []) ++
              [Step.missedBlocks b, Step.sleep interval])))) ∨
    (∃ e w1 pre r b, reloadPart E config prev (w, tr) = (Except.error e, (w1, tr ++ pre)) ∧
      pre <+: ([Step.needsReload prev r] ++
              (if r then [Step.reload, Step.waitUntilAPIReady, Step.enableForging] else []) ++
              [Step.missedBlocks b, Step.sleep interval]) ∧
      pre.length < ([Step.needsReload prev r] ++
              (if r then [Step.reload, Step.waitUntilAPIReady, Step.enableForging] else []) ++
              [Step.missedBlocks b, Step.sleep interval]).length) := by
  rcases hnr : needsReload E config prev w with ⟨e | r, w1⟩
  · right
    refine ⟨e, w1, [], false, 0, ?_, by simp, by simp⟩
    unfold reloadPart
    rw [bind_observe_error _ _ _ _ _ _ _ hnr]
    simp
  · cases r with
    | false =>
      have key : reloadPart E config prev (w, tr)
          = refreshPart E config (w1, tr ++ [Step.needsReload prev false]) := by
        unfold reloadPart
        rw [bind_observe_ok _ _ _ _ _ _ _ hnr]
        rfl
      rw [key]
      rcases refreshPart_run E config w1 (tr ++ [Step.needsReload prev false]) with
        ⟨b, w2, h1, h2⟩ | ⟨e, w2, h2⟩
      · left
        exact ⟨false, b, w1, w1, w2, rfl, h1, by rw [h2]; simp⟩
      · right
        exact ⟨e, w2, [Step.needsReload prev false], false, 0, by rw [h2], by simp, by simp⟩
    | true =>
      have key : reloadPart E config prev (w, tr)
          = (observe (fun _ => Step.reload) (reload E config) >>= fun _ =>
              observe (fun _ => Step.waitUntilAPIReady) (waitUntilAPIReady E config) >>= fun _ =>
              observe (fun _ => Step.enableForging) (enableForging E config) >>= fun _ =>
              refreshPart E config) (w1, tr ++ [Step.needsReload prev true]) := by
        unfold reloadPart
        rw [bind_observe_ok _ _ _ _ _ _ _ hnr]
        rfl
      rw [key]
      rcases recover_run E config (reload E config) Step.reload (fun _ => refreshPart E config)
        w1 (tr ++ [Step.needsReload prev true]) with
        ⟨v1, v2, v3, _, _, _, h⟩ | ⟨e, v1, pre, h, hpre⟩
      · rw [h]
        rcases refreshPart_run E config v3 (tr ++ [Step.needsReload prev true] ++
            [Step.reload, Step.waitUntilAPIReady, Step.enableForging]) with
          ⟨b, w2, h1, h2⟩ | ⟨e, w2, h2⟩
        · left
          exact ⟨true, b, w1, v3, w2, rfl, h1, by rw [h2]; simp⟩
        · right
          exact ⟨e, w2, [Step.needsReload prev true, Step.reload, Step.waitUntilAPIReady,
            Step.enableForging], true, 0, by rw [h2]; simp, by simp, by simp⟩
      · right
        rw [h]
        refine ⟨e, v1, Step.needsReload prev true :: pre, true, 0, by simp, ?_, ?_⟩
        · rcases hpre with h | h | h <;> rw [h] <;> simp
        · rcases hpre with h | h | h <;> rw [h] <;> simp

/-- One pass of the loop: it runs to its end with the calls of passSteps made, or it ends
in a panic with a strict beginning of them made. -/
theorem loopBody_run (E : Env W) (config : Configuration) (prev : Int) (w : W)
    (tr : List Step) :
    (∃ u r b w1 w2 w3 w4 w5, needsUpdate E config w = (Except.ok u, w1) ∧
      needsReload E config prev w2 = (Except.ok r, w3) ∧
      missedBlocks E config w4 = (Except.ok b, w5) ∧
      loopBody E config prev (w, tr)
        = (Except.ok b, (E.sleep interval w5, tr ++ passSteps u r prev b))) ∨
    (∃ e w1 pre u r b, loopBody E config prev (w, tr) = (Except.error e, (w1, tr ++ pre)) ∧
      pre <+: passSteps u r prev b ∧ pre.length < (passSteps u r prev b).length ∧
      (pre ≠ [] → (needsUpdate E config w).1 = Except.ok u)) := by
  rcases hnu : needsUpdate E config w with ⟨e | u, w1⟩
  · right
    refine ⟨e, w1, [], false, false, 0, ?_, by simp, by simp [passSteps], by simp⟩
    unfold loopBody
    rw [bind_observe_error _ _ _ _ _ _ _ hnu]
    simp
  · cases u with
    | false =>
      have key : loopBody E config prev (w, tr)
          = reloadPart E config prev (w1, tr ++ [Step.needsUpdate false]) := by
        unfold loopBody
        rw [bind_observe_ok _ _ _ _ _ _ _ hnu]
        rfl
      rw [key]
      rcases reloadPart_run E config prev w1 (tr ++ [Step.needsUpdate false]) with
        ⟨r, b, v1, v2, v3, h1, h2, h3⟩ | ⟨e, v1, pre, r, b, h1, h2, h3⟩
      · left
        exact ⟨false, r, b, w1, w1, v1, v2, v3, rfl, h1, h2, by rw [h3]; simp [passSteps]⟩
      · right
        refine ⟨e, v1, Step.needsUpdate false :: pre, false, r, b, by rw [h1]; simp, ?_, ?_,
          fun _ => rfl⟩
        · simpa [passSteps] using h2
        · simpa [passSteps] using h3
    | true =>
      have key : loopBody E config prev (w, tr)
          = (observe (fun _ => Step.update) (update E config) >>= fun _ =>
              observe (fun _ => Step.waitUntilAPIReady) (waitUntilAPIReady E config) >>= fun _ =>
              observe (fun _ => Step.enableForging) (enableForging E config) >>= fun _ =>
              reloadPart E config prev) (w1, tr ++ [Step.needsUpdate true]) := by
        unfold loopBody
        rw [bind_observe_ok _ _ _ _ _ _ _ hnu]
        rfl
      rw [key]
      rcases recover_run E config (update E config) Step.update
        (fun _ => reloadPart E config prev) w1 (tr ++ [Step.needsUpdate true]) with
        ⟨v1, v2, v3, _, _, _, h⟩ | ⟨e, v1, pre, h, hpre⟩
      · rw [h]
        rcases reloadPart_run E config prev v3 (tr ++ [Step.needsUpdate true] ++
            [Step.update, Step.waitUntilAPIReady, Step.enableForging]) with
          ⟨r, b, x1, x2, x3, h1, h2, h3⟩ | ⟨e, x1, pre, r, b, h1, h2, h3⟩
        · left
          exact ⟨true, r, b, w1, v3, x1, x2, x3, rfl, h1, h2, by rw [h3]; simp [passSteps]⟩
        · right
          refine ⟨e, x1, [Step.needsUpdate true, Step.update, Step.waitUntilAPIReady,
            Step.enableForging] ++ pre, true, r, b, by rw [h1]; simp, ?_, ?_, fun _ => rfl⟩
          · simpa [passSteps] using h2
          · simp only [passSteps, List.length_append] at h3 ⊢
            simp at h3 ⊢
            omega
      · right
        rw [h]
        refine ⟨e, v1, Step.needsUpdate true :: pre, true, false, 0, by simp, ?_, ?_,
          fun _ => rfl⟩
        · rcases hpre with h | h | h <;> rw [h] <;> simp [passSteps]
        · rcases hpre with h | h | h <;> rw [h] <;> simp [passSteps]

theorem refreshPart_ok (E : Env W) (config : Configuration) (w w1 : W) (tr : List Step)
    (b : Int) (h : missedBlocks E config w = (Except.ok b, w1)) :
    refreshPart E config (w, tr)
      = (Except.ok b, (E.sleep interval w1, tr ++ [Step.missedBlocks b, Step.sleep interval])) := by
  unfold refreshPart
  rw [bind_observe_ok _ _ _ _ _ _ _ h,
    bind_observe_ok _ _ _ _ (E.sleep interval w1) _ () (by rw [Act.ask_run])]
  simp [Act.pure_run]

theorem recover_ok {β : Type} (E : Env W) (config : Configuration) (first : Act W Unit)
    (s1 : Step) (k : Unit → Act (W × List Step) β) (w w1 w2 w3 : W) (tr : List Step)
    (h1 : first w = (Except.ok (), w1))
    (h2 : waitUntilAPIReady E config w1 = (Except.ok (), w2))
    (h3 : enableForging E config w2 = (Except.ok (), w3)) :
    (observe (fun _ => s1) first >>= fun _ =>
      observe (fun _ => Step.waitUntilAPIReady) (waitUntilAPIReady E config) >>= fun _ =>
      observe (fun _ => Step.enableForging) (enableForging E config) >>= k) (w, tr)
      = k () (w3, tr ++ [s1, Step.waitUntilAPIReady, Step.enableForging]) := by
  rw [bind_observe_ok _ _ _ _ _ _ _ h1, bind_observe_ok _ _ _ _ _ _ _ h2,
    bind_observe_ok _ _ _ _ _ _ _ h3]
  simp

theorem reloadPart_skip (E : Env W) (config : Configuration) (prev : Int) (w w1 : W)
    (tr : List Step) (h : needsReload E config prev w = (Except.ok false, w1)) :
    reloadPart E config prev (w, tr)
      = refreshPart E config (w1, tr ++ [Step.needsReload prev false]) := by
  unfold reloadPart
  rw [bind_observe_ok _ _ _ _ _ _ _ h]
  rfl

theorem reloadPart_reload (E : Env W) (config : Configuration) (prev : Int) (w w1 w2 w3 w4 : W)
    (tr : List Step) (h : needsReload E config prev w = (Except.ok true, w1))
    (h1 : reload E config w1 = (Except.ok (), w2))
    (h2 : waitUntilAPIReady E config w2 = (Except.ok (), w3))
    (h3 : enableForging E config w3 = (Except.ok (), w4)) :
    reloadPart E config prev (w, tr)
      = refreshPart E config (w4, tr ++ [Step.needsReload prev true, Step.reload,
          Step.waitUntilAPIReady, Step.enableForging]) := by
  have key : reloadPart E config prev (w, tr)
      = (observe (fun _ => Step.reload) (reload E config) >>= fun _ =>
          observe (fun _ => Step.waitUntilAPIReady) (waitUntilAPIReady E config) >>= fun _ =>
          observe (fun _ => Step.enableForging) (enableForging E config) >>= fun _ =>
          refreshPart E config) (w1, tr ++ [Step.needsReload prev true]) := by
    unfold reloadPart
    rw [bind_observe_ok _ _ _ _ _ _ _ h]
    rfl
  rw [key, recover_ok E config _ _ _ w1 w2 w3 w4 _ h1 h2 h3]
  simp

theorem loopBody_skip (E : Env W) (config : Configuration) (prev : Int) (w w1 : W)
    (tr : List Step) (h : needsUpdate E config w = (Except.ok false, w1)) :
    loopBody E config prev (w, tr)
      = reloadPart E config prev (w1, tr ++ [Step.needsUpdate false]) := by
  unfold loopBody
  rw [bind_observe_ok _ _ _ _ _ _ _ h]
  rfl

theorem loopBody_update (E : Env W) (config : Configuration) (prev : Int) (w w1 w2 w3 w4 : W)
    (tr : List Step) (h : needsUpdate E config w = (Except.ok true, w1))
    (h1 : update E config w1 = (Except.ok (), w2))
    (h2 : waitUntilAPIReady E config w2 = (Except.ok (), w3))
    (h3 : enableForging E config w3 = (Except.ok (), w4)) :
    loopBody E config prev (w, tr)
      = reloadPart E config prev (w4, tr ++ [Step.needsUpdate true, Step.update,
          Step.waitUntilAPIReady, Step.enableForging]) := by
  have key : loopBody E config prev (w, tr)
      = (observe (fun _ => Step.update) (update E config) >>= fun _ =>
          observe (fun _ => Step.waitUntilAPIReady) (waitUntilAPIReady E config) >>= fun _ =>
          observe (fun _ => Step.enableForging) (enableForging E config) >>= fun _ =>
          reloadPart E config prev) (w1, tr ++ [Step.needsUpdate true]) := by
    unfold loopBody
    rw [bind_observe_ok _ _ _ _ _ _ _ h]
    rfl
  rw [key, recover_ok E config _ _ _ w1 w2 w3 w4 _ h1 h2 h3]
  simp

/-- In the worked examples a wait that starts with two failing probes ahead returns. -/
theorem waitUntilAPIReady_scenario (sc : Scenario) :
    waitUntilAPIReady (scenarioEnv sc) testConfig 2 = (Except.ok (), 0) := by
  simp [waitUntilAPIReady, Do, DoLoop, readinessWork, isAPIReady, scenarioEnv, testConfig,
    maxAttempts, maxRetries]

/-- Scenario D run: no update, a reload, the baseline 6. -/
theorem scenarioD_run :
    loopBody (scenarioEnv scenarioD) testConfig 5 (0, [])
      = (Except.ok 6, (0, [Step.needsUpdate false, Step.needsReload 5 true, Step.reload,
          Step.waitUntilAPIReady, Step.enableForging, Step.missedBlocks 6, Step.sleep 5])) := by
  rw [loopBody_skip (scenarioEnv scenarioD) testConfig 5 0 0 _ rfl,
    reloadPart_reload (scenarioEnv scenarioD) testConfig 5 0 0 2 0 0 _ rfl rfl
      (waitUntilAPIReady_scenario _) rfl,
    refreshPart_ok (scenarioEnv scenarioD) testConfig 0 0 _ 6 rfl]
  rfl

/-- Scenario B run: an update, no reload, the baseline 5. -/
theorem scenarioB_run :
    loopBody (scenarioEnv scenarioB) testConfig 5 (0, [])
      = (Except.ok 5, (0, [Step.needsUpdate true, Step.update, Step.waitUntilAPIReady,
          Step.enableForging, Step.needsReload 5 false, Step.missedBlocks 5, Step.sleep 5])) := by
  rw [loopBody_update (scenarioEnv scenarioB) testConfig 5 0 0 2 0 0 _ rfl rfl
      (waitUntilAPIReady_scenario _) rfl,
    reloadPart_skip (scenarioEnv scenarioB) testConfig 5 0 0 _ rfl,
    refreshPart_ok (scenarioEnv scenarioB) testConfig 0 0 _ 5 rfl]
  rfl

end LoopLemmas

section TraceLemmas

variable {W : Type}

theorem replay_cons_ok (E : Env W) (config : Configuration) (st : Step) (rest : List Step)
    (w w1 : W) (h : stepCall E config st w = (Except.ok st, w1)) :
    replay E config (st :: rest) w = replay E config rest w1 := by
  simp [replay, h]

theorem replay_append (E : Env W) (config : Configuration) (a b : List Step) :
    ∀ w, replay E config (a ++ b) w = (replay E config a w).bind (replay E config b) := by
  induction a with
  | nil => intro w; rfl
  | cons st rest ih =>
    intro w
    simp only [List.cons_append, replay]
    rcases hc : stepCall E config st w with ⟨e | st1, w1⟩
    · rfl
    · by_cases hst : st1 = st
      · simp only [hst, if_true]
        exact ih w1
      · simp only [hst, if_false]
        rfl

theorem PanicsAt_prepend (E : Env W) (config : Configuration) (r0 row pre : List Step)
    (w wm wf : W) (e : Panic) (h0 : replay E config r0 w = some wm)
    (h : PanicsAt E config row wm pre e wf) :
    PanicsAt E config (r0 ++ row) w (r0 ++ pre) e wf := by
  obtain ⟨next, rest, w1, hrow, hrep, hc⟩ := h
  refine ⟨next, rest, w1, by rw [hrow, List.append_assoc], ?_, hc⟩
  rw [replay_append, h0]
  exact hrep

theorem PanicsAt_extend (E : Env W) (config : Configuration) (row more pre : List Step)
    (w wf : W) (e : Panic) (h : PanicsAt E config row w pre e wf) :
    PanicsAt E config (row ++ more) w pre e wf := by
  obtain ⟨next, rest, w1, hrow, hrep, hc⟩ := h
  exact ⟨next, rest ++ more, w1, by rw [hrow]; simp, hrep, hc⟩

theorem named_ok {α : Type} (x : Act W α) (mk : α → Step) (w w1 : W) (a : α)
    (h : x w = (Except.ok a, w1)) : Act.named x mk w = (Except.ok (mk a), w1) := by
  simp [Act.named, h]

theorem named_error {α : Type} (x : Act W α) (mk : α → Step) (w w1 : W) (e : Panic)
    (h : x w = (Except.error e, w1)) : Act.named x mk w = (Except.error e, w1) := by
  simp [Act.named, h]

/-- A corrective call, the wait and enableForging in a row, with the worlds: either all
three return one after the other, or one of them panics after the ones before it
returned. -/
theorem recover_trace {β : Type} (E : Env W) (config : Configuration) (first : Act W Unit)
    (s1 : Step) (hcall : stepCall E config s1 = Act.named first (fun _ => s1))
    (k : Unit → Act (W × List Step) β) (w : W) (tr : List Step) :
    (∃ a1 a2 w3, first w = (Except.ok (), a1) ∧
      waitUntilAPIReady E config a1 = (Except.ok (), a2) ∧
      enableForging E config a2 = (Except.ok (), w3) ∧
      replay E config [s1, Step.waitUntilAPIReady, Step.enableForging] w = some w3 ∧
      (observe (fun _ => s1) first >>= fun _ =>
        observe (fun _ => Step.waitUntilAPIReady) (waitUntilAPIReady E config) >>= fun _ =>
        observe (fun _ => Step.enableForging) (enableForging E config) >>= k) (w, tr)
        = k () (w3, tr ++ [s1, Step.waitUntilAPIReady, Step.enableForging])) ∨
    (∃ e wf pre,
      (observe (fun _ => s1) first >>= fun _ =>
        observe (fun _ => Step.waitUntilAPIReady) (waitUntilAPIReady E config) >>= fun _ =>
        observe (fun _ => Step.enableForging) (enableForging E config) >>= k) (w, tr)
        = (Except.error e, (wf, tr ++ pre)) ∧
      PanicsAt E config [s1, Step.waitUntilAPIReady, Step.enableForging] w pre e wf) := by
  rcases h1 : first w with ⟨e | u1, w1⟩
  · right
    refine ⟨e, w1, [], by rw [bind_observe_error _ _ _ _ _ _ _ h1]; simp, ?_⟩
    exact ⟨s1, _, w, rfl, rfl, by rw [hcall]; exact named_error _ _ _ _ _ h1⟩
  · have c1 : stepCall E config s1 w = (Except.ok s1, w1) := by
      rw [hcall]
      exact named_ok _ _ _ _ _ h1
    rw [bind_observe_ok _ _ _ _ _ _ _ h1]
    rcases h2 : waitUntilAPIReady E config w1 with ⟨e | u2, w2⟩
    · right
      refine ⟨e, w2, [s1], by rw [bind_observe_error _ _ _ _ _ _ _ h2], ?_⟩
      exact ⟨Step.waitUntilAPIReady, _, w1, rfl, by rw [replay_cons_ok E config _ _ _ _ c1]; rfl,
        named_error _ _ _ _ _ h2⟩
    · have c2 : stepCall E config Step.waitUntilAPIReady w1
          = (Except.ok Step.waitUntilAPIReady, w2) := named_ok _ _ _ _ _ h2
      rw [bind_observe_ok _ _ _ _ _ _ _ h2]
      rcases h3 : enableForging E config w2 with ⟨e | u3, w3⟩
      · right
        refine ⟨e, w3, [s1, Step.waitUntilAPIReady],
          by rw [bind_observe_error _ _ _ _ _ _ _ h3]; simp, ?_⟩
        exact ⟨Step.enableForging, _, w2, rfl,
          by rw [replay_cons_ok E config _ _ _ _ c1, replay_cons_ok E config _ _ _ _ c2]; rfl,
          named_error _ _ _ _ _ h3⟩
      · have c3 : stepCall E config Step.enableForging w2
            = (Except.ok Step.enableForging, w3) := named_ok _ _ _ _ _ h3
        left
        refine ⟨w1, w2, w3, rfl, h2, h3, ?_, by rw [bind_observe_ok _ _ _ _ _ _ _ h3]; simp⟩
        rw [replay_cons_ok E config _ _ _ _ c1, replay_cons_ok E config _ _ _ _ c2,
          replay_cons_ok E config _ _ _ _ c3]
        rfl

/-- The end of a pass, with the worlds. -/
theorem refreshPart_trace (E : Env W) (config : Configuration) (w : W) (tr : List Step) :
    (∃ b w1, missedBlocks E config w = (Except.ok b, w1) ∧
      refreshPart E config (w, tr)
        = (Except.ok b, (E.sleep interval w1, tr ++ [Step.missedBlocks b, Step.sleep interval]))) ∨
    (∃ e w1, missedBlocks E config w = (Except.error e, w1) ∧
      refreshPart E config (w, tr) = (Except.error e, (w1, tr))) := by
  rcases h1 : missedBlocks E config w with ⟨e | b, w1⟩
  · right
    refine ⟨e, w1, rfl, ?_⟩
    unfold refreshPart
    rw [bind_observe_error _ _ _ _ _ _ _ h1]
  · left
    exact ⟨b, w1, rfl, refreshPart_ok E config w w1 tr b h1⟩

/-- A pass from its reload check on, with the worlds: it runs to its end through the calls
one after the other, or one of the calls of the row panics after the ones before it
returned. -/
theorem reloadPart_trace (E : Env W) (config : Configuration) (prev : Int) (w : W)
    (tr : List Step) :
    (∃ r b w1 w2 w3, needsReload E config prev w = (Except.ok r, w1) ∧
      (r = true → ∃ a1 a2, reload E config w1 = (Except.ok (), a1) ∧
        waitUntilAPIReady E config a1 = (Except.ok (), a2) ∧
        enableForging E config a2 = (Except.ok (), w2)) ∧
      (r = false → w2 = w1) ∧
      missedBlocks E config w2 = (Except.ok b, w3) ∧
      reloadPart E config prev (w, tr)
        = (Except.ok b, (E.sleep interval w3,
            tr ++ ([Step.needsReload prev r] ++
              (if r then [Step.reload, Step.waitUntilAPIReady, Step.enableForging] else []) ++
              [Step.missedBlocks b, Step.sleep interval])))) ∨
    (∃ e wf pre r b, reloadPart E config prev (w, tr) = (Except.error e, (wf, tr ++ pre)) ∧
      PanicsAt E config ([Step.needsReload prev r] ++
              (if r then [Step.reload, Step.waitUntilAPIReady, Step.enableForging] else []) ++
              [Step.missedBlocks b, Step.sleep interval]) w pre e wf) := by
  rcases hnr : needsReload E config prev w with ⟨e | r, w1⟩
  · right
    refine ⟨e, w1, [], false, 0, ?_, ?_⟩
    · unfold reloadPart
      rw [bind_observe_error _ _ _ _ _ _ _ hnr]
      simp
    · exact ⟨Step.needsReload prev false, _, w, rfl, rfl, named_error _ _ _ _ _ hnr⟩
  · have c0 : stepCall E config (Step.needsReload prev r) w
        = (Except.ok (Step.needsReload prev r), w1) := named_ok _ _ _ _ _ hnr
    cases r with
    | false =>
      rw [reloadPart_skip E config prev w w1 tr hnr]
      rcases refreshPart_trace E config w1 (tr ++ [Step.needsReload prev false]) with
        ⟨b, w2, h1, h2⟩ | ⟨e, w2, h1, h2⟩
      · left
        exact ⟨false, b, w1, w1, w2, rfl, fun h => absurd h (by decide), fun _ => rfl, h1,
          by rw [h2]; simp⟩
      · right
        refine ⟨e, w2, [Step.needsReload prev false], false, 0, by rw [h2], ?_⟩
        exact ⟨Step.missedBlocks 0, _, w1, rfl,
          by rw [replay_cons_ok E config _ _ _ _ c0]; rfl, named_error _ _ _ _ _ h1⟩
    | true =>
      have key : reloadPart E config prev (w, tr)
          = (observe (fun _ => Step.reload) (reload E config) >>= fun _ =>
              observe (fun _ => Step.waitUntilAPIReady) (waitUntilAPIReady E config) >>= fun _ =>
              observe (fun _ => Step.enableForging) (enableForging E config) >>= fun _ =>
              refreshPart E config) (w1, tr ++ [Step.needsReload prev true]) := by
        unfold reloadPart
        rw [bind_observe_ok _ _ _ _ _ _ _ hnr]
        rfl
      rw [key]
      have hrep0 : replay E config [Step.needsReload prev true] w = some w1 := by
        rw [replay_cons_ok E config _ _ _ _ c0]
        rfl
      rcases recover_trace E config (reload E config) Step.reload rfl
        (fun _ => refreshPart E config) w1 (tr ++ [Step.needsReload prev true]) with
        ⟨a1, a2, v3, g1, g2, g3, grep, h⟩ | ⟨e, wf, pre, h, hp⟩
      · rw [h]
        rcases refreshPart_trace E config v3 (tr ++ [Step.needsReload prev true] ++
            [Step.reload, Step.waitUntilAPIReady, Step.enableForging]) with
          ⟨b, w2, h1, h2⟩ | ⟨e, w2, h1, h2⟩
        · left
          exact ⟨true, b, w1, v3, w2, rfl, fun _ => ⟨a1, a2, g1, g2, g3⟩,
            fun h => absurd h (by decide), h1, by rw [h2]; simp⟩
        · right
          refine ⟨e, w2, [Step.needsReload prev true] ++
            [Step.reload, Step.waitUntilAPIReady, Step.enableForging], true, 0,
            by rw [h2]; simp, ?_⟩
          refine ⟨Step.missedBlocks 0, [Step.sleep interval], v3, by simp, ?_,
            named_error _ _ _ _ _ h1⟩
          rw [replay_append, hrep0]
          exact grep
      · right
        refine ⟨e, wf, [Step.needsReload prev true] ++ pre, true, 0, by rw [h]; simp, ?_⟩
        have := PanicsAt_extend E config _ [Step.missedBlocks 0, Step.sleep interval] _ _ _ _
          (PanicsAt_prepend E config [Step.needsReload prev true] _ _ w w1 wf e hrep0 hp)
        simpa using this

/-- One pass of the loop, with the worlds: it runs to its end through the calls of
passSteps one after the other, or one of the calls of the row panics after the ones
before it returned. -/
theorem loopBody_trace (E : Env W) (config : Configuration) (prev : Int) (w : W)
    (tr : List Step) :
    (∃ u r b w1 w2 w3 w4 w5, needsUpdate E config w = (Except.ok u, w1) ∧
      (u = true → ∃ a1 a2, update E config w1 = (Except.ok (), a1) ∧
        waitUntilAPIReady E config a1 = (Except.ok (), a2) ∧
        enableForging E config a2 = (Except.ok (), w2)) ∧
      (u = false → w2 = w1) ∧
      needsReload E config prev w2 = (Except.ok r, w3) ∧
      (r = true → ∃ a1 a2, reload E config w3 = (Except.ok (), a1) ∧
        waitUntilAPIReady E config a1 = (Except.ok (), a2) ∧
        enableForging E config a2 = (Except.ok (), w4)) ∧
      (r = false → w4 = w3) ∧
      missedBlocks E config w4 = (Except.ok b, w5) ∧
      loopBody E config prev (w, tr)
        = (Except.ok b, (E.sleep interval w5, tr ++ passSteps u r prev b))) ∨
    (∃ e wf pre u r b, loopBody E config prev (w, tr) = (Except.error e, (wf, tr ++ pre)) ∧
      PanicsAt E config (passSteps u r prev b) w pre e wf) := by
  rcases hnu : needsUpdate E config w with ⟨e | u, w1⟩
  · right
    refine ⟨e, w1, [], false, false, 0, ?_, ?_⟩
    · unfold loopBody
      rw [bind_observe_error _ _ _ _ _ _ _ hnu]
      simp
    · exact ⟨Step.needsUpdate false, _, w, rfl, rfl, named_error _ _ _ _ _ hnu⟩
  · have c0 : stepCall E config (Step.needsUpdate u) w
        = (Except.ok (Step.needsUpdate u), w1) := named_ok _ _ _ _ _ hnu
    cases u with
    | false =>
      have hrep0 : replay E config [Step.needsUpdate false] w = some w1 := by
        rw [replay_cons_ok E config _ _ _ _ c0]
        rfl
      rw [loopBody_skip E config prev w w1 tr hnu]
      rcases reloadPart_trace E config prev w1 (tr ++ [Step.needsUpdate false]) with
        ⟨r, b, v1, v2, v3, h1, h2, h3, h4, h5⟩ | ⟨e, wf, pre, r, b, h1, hp⟩
      · left
        exact ⟨false, r, b, w1, w1, v1, v2, v3, rfl, fun h => absurd h (by decide), fun _ => rfl,
          h1, h2, h3, h4, by rw [h5]; simp [passSteps]⟩
      · right
        refine ⟨e, wf, [Step.needsUpdate false] ++ pre, false, r, b, by rw [h1]; simp, ?_⟩
        have := PanicsAt_prepend E config [Step.needsUpdate false] _ _ w w1 wf e hrep0 hp
        simpa [passSteps] using this
    | true =>
      have hrep0 : replay E config [Step.needsUpdate true] w = some w1 := by
        rw [replay_cons_ok E config _ _ _ _ c0]
        rfl
      have key : loopBody E config prev (w, tr)
          = (observe (fun _ => Step.update) (update E config) >>= fun _ =>
              observe (fun _ => Step.waitUntilAPIReady) (waitUntilAPIReady E config) >>= fun _ =>
              observe (fun _ => Step.enableForging) (enableForging E config) >>= fun _ =>
              reloadPart E config prev) (w1, tr ++ [Step.needsUpdate true]) := by
        unfold loopBody
        rw [bind_observe_ok _ _ _ _ _ _ _ hnu]
        rfl
      rw [key]
      rcases recover_trace E config (update E config) Step.update rfl
        (fun _ => reloadPart E config prev) w1 (tr ++ [Step.needsUpdate true]) with
        ⟨a1, a2, v3, g1, g2, g3, grep, h⟩ | ⟨e, wf, pre, h, hp⟩
      · rw [h]
        have hrep1 : replay E config ([Step.needsUpdate true] ++
            [Step.update, Step.waitUntilAPIReady, Step.enableForging]) w = some v3 := by
          rw [replay_append, hrep0]
          exact grep
        rcases reloadPart_trace E config prev v3 (tr ++ [Step.needsUpdate true] ++
            [Step.update, Step.waitUntilAPIReady, Step.enableForging]) with
          ⟨r, b, x1, x2, x3, h1, h2, h3, h4, h5⟩ | ⟨e, wf, pre, r, b, h1, hp⟩
        · left
          exact ⟨true, r, b, w1, v3, x1, x2, x3, rfl, fun _ => ⟨a1, a2, g1, g2, g3⟩,
            fun h => absurd h (by decide), h1, h2, h3, h4, by rw [h5]; simp [passSteps]⟩
        · right
          refine ⟨e, wf, ([Step.needsUpdate true] ++
            [Step.update, Step.waitUntilAPIReady, Step.enableForging]) ++ pre, true, r, b,
            by rw [h1]; simp, ?_⟩
          have := PanicsAt_prepend E config _ _ _ w v3 wf e hrep1 hp
          simpa [passSteps] using this
      · right
        refine ⟨e, wf, [Step.needsUpdate true] ++ pre, true, false, 0, by rw [h]; simp, ?_⟩
        have := PanicsAt_extend E config _
          ([Step.needsReload prev false] ++ [Step.missedBlocks 0, Step.sleep interval]) _ _ _ _
          (PanicsAt_prepend E config [Step.needsUpdate true] _ _ w w1 wf e hrep0 hp)
        simpa [passSteps] using this

end TraceLemmas

theorem needsUpdate_of_versions {W : Type} (E : Env W) (config : Configuration) (w w1 w2 : W)
    (l v : String) (h1 : localVersion E config w = (Except.ok l, w1))
    (h2 : latestVersion E w1 = (Except.ok v, w2)) :
    needsUpdate E config w = (Except.ok (l != v), w2) := by
  unfold needsUpdate
  rw [Act.bind_ok _ _ w w1 _ h1, Act.bind_ok _ _ w1 w2 _ h2]
  rfl

theorem update_not_mem_passSteps_false (r : Bool) (prev b : Int) :
    Step.update ∉ passSteps false r prev b := by
  cases r <;> simp [passSteps]

/-- C1: a pass of the loop of main that runs to its end has made, each call in the world
the one before it left: the update check; when and only when its verdict u is true, update,
waitUntilAPIReady and enableForging once each; the reload check on prevMissedBlocks, whether
or not there was an update; when and only when its verdict r is true, reload,
waitUntilAPIReady and enableForging once each; the refresh of the baseline and the sleep,
which leaves the world of the pass. A pass that ends in a panic has made and seen return a
strict beginning of such a row, and the call that comes next in the row has panicked. With
equal local and latest versions no pass has update in its row, and the reload check is
made in the world the update check left; with distinct ones a pass that runs to its end has
made update once, then the wait and enableForging once each, then the reload check. -/
theorem loopBody_order {W : Type} (E : Env W) (config : Configuration) (prev : Int) (w : W) :
    (∀ b s, loopBody E config prev (w, []) = (Except.ok b, s) →
      ∃ u r w1 w2 w3 w4 w5, needsUpdate E config w = (Except.ok u, w1) ∧
        (u = true → ∃ a1 a2, update E config w1 = (Except.ok (), a1) ∧
          waitUntilAPIReady E config a1 = (Except.ok (), a2) ∧
          enableForging E config a2 = (Except.ok (), w2)) ∧
        (u = false → w2 = w1) ∧
        needsReload E config prev w2 = (Except.ok r, w3) ∧
        (r = true → ∃ a1 a2, reload E config w3 = (Except.ok (), a1) ∧
          waitUntilAPIReady E config a1 = (Except.ok (), a2) ∧
          enableForging E config a2 = (Except.ok (), w4)) ∧
        (r = false → w4 = w3) ∧
        missedBlocks E config w4 = (Except.ok b, w5) ∧
        s = (E.sleep interval w5, passSteps u r prev b)) ∧
    (∀ e s, loopBody E config prev (w, []) = (Except.error e, s) →
      ∃ u r b next rest w1, passSteps u r prev b = s.2 ++ next :: rest ∧
        replay E config s.2 w = some w1 ∧
        stepCall E config next w1 = (Except.error e, s.1)) ∧
    (∀ l v w1 w2, localVersion E config w = (Except.ok l, w1) →
      latestVersion E w1 = (Except.ok v, w2) →
      (l = v → Step.update ∉ (loopBody E config prev (w, [])).2.2 ∧
        ∀ b s, loopBody E config prev (w, []) = (Except.ok b, s) →
          ∃ r w3, needsReload E config prev w2 = (Except.ok r, w3) ∧
            s.2 = passSteps false r prev b) ∧
      (l ≠ v → ∀ b s, loopBody E config prev (w, []) = (Except.ok b, s) →
        ∃ a1 a2 a3 r w3, update E config w2 = (Except.ok (), a1) ∧
          waitUntilAPIReady E config a1 = (Except.ok (), a2) ∧
          enableForging E config a2 = (Except.ok (), a3) ∧
          needsReload E config prev a3 = (Except.ok r, w3) ∧
          s.2 = passSteps true r prev b ∧
          s.2.take 5 = [Step.needsUpdate true, Step.update, Step.waitUntilAPIReady,
            Step.enableForging, Step.needsReload prev r] ∧
          s.2.count Step.update = 1)) := by
  have htr := loopBody_trace E config prev w []
  simp only [List.nil_append] at htr
  have hrun := loopBody_run E config prev w []
  simp only [List.nil_append] at hrun
  refine ⟨?_, ?_, ?_⟩
  · intro b s hs
    rcases htr with ⟨u, r, b1, w1, w2, w3, w4, w5, h1, h2, h3, h4, h5, h6, h7, h8⟩ |
      ⟨e, wf, pre, u, r, b1, h1, _⟩
    · rw [h8] at hs
      cases hs
      exact ⟨u, r, w1, w2, w3, w4, w5, h1, h2, h3, h4, h5, h6, h7, rfl⟩
    · rw [h1] at hs
      cases hs
  · intro e s hs
    rcases htr with ⟨u, r, b1, w1, w2, w3, w4, w5, _, _, _, _, _, _, _, h8⟩ |
      ⟨e1, wf, pre, u, r, b1, h1, next, rest, x1, g1, g2, g3⟩
    · rw [h8] at hs
      cases hs
    · rw [h1] at hs
      cases hs
      exact ⟨u, r, b1, next, rest, x1, g1, g2, g3⟩
  · intro l v w1 w2 hl hv
    have hnu := needsUpdate_of_versions E config w w1 w2 l v hl hv
    constructor
    · intro hlv
      have hnu2 : needsUpdate E config w = (Except.ok false, w2) := by
        rw [hnu, hlv]
        simp
      have hfalse : (needsUpdate E config w).1 = Except.ok false := by rw [hnu2]
      constructor
      · rcases hrun with ⟨u, r, b1, x1, x2, x3, x4, x5, h1, _, _, h4⟩ |
          ⟨e1, x1, pre, u, r, b1, h1, h2, _, h4⟩
        · rw [h4]
          rw [h1] at hfalse
          cases hfalse
          exact update_not_mem_passSteps_false r prev b1
        · rw [h1]
          intro hmem
          have hne : pre ≠ [] := List.ne_nil_of_mem hmem
          have hu := h4 hne
          rw [hfalse] at hu
          cases hu
          exact update_not_mem_passSteps_false r prev b1 (h2.subset hmem)
      · intro b s hs
        rcases htr with ⟨u, r, b1, x1, x2, x3, x4, x5, h1, _, h3, h4, _, _, _, h8⟩ |
          ⟨e1, wf, pre, u, r, b1, h1, _⟩
        · rw [h8] at hs
          cases hs
          rw [hnu2] at h1
          cases h1
          have := h3 rfl
          subst this
          exact ⟨r, x3, h4, rfl⟩
        · rw [h1] at hs
          cases hs
    · intro hlv b s hs
      have hnu2 : needsUpdate E config w = (Except.ok true, w2) := by
        rw [hnu]
        simp [hlv]
      rcases htr with ⟨u, r, b1, x1, x2, x3, x4, x5, h1, h2, _, h4, _, _, _, h8⟩ |
        ⟨e1, wf, pre, u, r, b1, h1, _⟩
      · rw [h8] at hs
        cases hs
        rw [hnu2] at h1
        cases h1
        obtain ⟨a1, a2, g1, g2, g3⟩ := h2 rfl
        refine ⟨a1, a2, x2, r, x3, g1, g2, g3, h4, rfl, ?_, ?_⟩ <;> cases r <;>
          simp [passSteps]
      · rw [h1] at hs
        cases hs

/-- C1, at scenario B: local version 1.0.0, latest 1.0.1. -/
theorem loopBody_order_witness :
    loopBody (scenarioEnv scenarioB) testConfig 5 (0, [])
      = (Except.ok 5, (0, [Step.needsUpdate true, Step.update, Step.waitUntilAPIReady,
          Step.enableForging, Step.needsReload 5 false, Step.missedBlocks 5, Step.sleep 5])) ∧
    ∃ a1 a2 a3 r w3, update (scenarioEnv scenarioB) testConfig 0 = (Except.ok (), a1) ∧
      waitUntilAPIReady (scenarioEnv scenarioB) testConfig a1 = (Except.ok (), a2) ∧
      enableForging (scenarioEnv scenarioB) testConfig a2 = (Except.ok (), a3) ∧
      needsReload (scenarioEnv scenarioB) testConfig 5 a3 = (Except.ok r, w3) ∧
      ([Step.needsUpdate true, Step.update, Step.waitUntilAPIReady, Step.enableForging,
          Step.needsReload 5 false, Step.missedBlocks 5, Step.sleep 5] : List Step)
        = passSteps true r 5 5 ∧
      ([Step.needsUpdate true, Step.update, Step.waitUntilAPIReady, Step.enableForging,
          Step.needsReload 5 false, Step.missedBlocks 5, Step.sleep 5] : List Step).take 5
        = [Step.needsUpdate true, Step.update, Step.waitUntilAPIReady,
            Step.enableForging, Step.needsReload 5 r] ∧
      ([Step.needsUpdate true, Step.update, Step.waitUntilAPIReady, Step.enableForging,
          Step.needsReload 5 false, Step.missedBlocks 5, Step.sleep 5] : List Step).count
        Step.update = 1 :=
  ⟨scenarioB_run,
    ((loopBody_order (scenarioEnv scenarioB) testConfig 5 0).2.2 "1.0.0" "1.0.1" 0 0 rfl rfl).2
      (by decide) 5 _ scenarioB_run⟩

theorem mainLoop_succ {W : Type} (E : Env W) (config : Configuration) (n : Nat) (prev : Int) :
    mainLoop E config (n + 1) prev = (loopBody E config prev >>= fun p => mainLoop E config n p) :=
  rfl

/-- C5: when the loop of main has run n+1 passes to their end, whatever the branches its
passes took and whatever baseline it started with, prevMissedBlocks is the value missedBlocks
returned in the refresh of the last pass, the last call before the sleep. -/
theorem baseline_refreshed {W : Type} (E : Env W) (config : Configuration) (n : Nat) :
    ∀ (prev : Int) (s s1 : W × List Step) (b : Int),
      mainLoop E config (n + 1) prev s = (Except.ok b, s1) →
      ∃ w4 w5 before, missedBlocks E config w4 = (Except.ok b, w5) ∧
        s1.1 = E.sleep interval w5 ∧
        s1.2 = before ++ [Step.missedBlocks b, Step.sleep interval] := by
  induction n with
  | zero =>
    intro prev s s1 b h
    rcases s with ⟨w, tr⟩
    rw [mainLoop_succ] at h
    rcases loopBody_run E config prev w tr with
      ⟨u, r, b1, w1, w2, w3, w4, w5, _, _, h3, h4⟩ | ⟨e, w1, pre, u, r, b1, h1, _⟩
    · rw [Act.bind_ok _ _ _ _ _ h4] at h
      cases h
      refine ⟨w4, w5, tr ++ ([Step.needsUpdate u] ++
        (if u then [Step.update, Step.waitUntilAPIReady, Step.enableForging] else []) ++
        [Step.needsReload prev r] ++
        (if r then [Step.reload, Step.waitUntilAPIReady, Step.enableForging] else [])),
        h3, rfl, ?_⟩
      simp [passSteps]
    · rw [Act.bind_error _ _ _ _ _ h1] at h
      cases h
  | succ n ih =>
    intro prev s s1 b h
    rcases s with ⟨w, tr⟩
    rw [mainLoop_succ] at h
    rcases loopBody_run E config prev w tr with
      ⟨u, r, b1, w1, w2, w3, w4, w5, _, _, h3, h4⟩ | ⟨e, w1, pre, u, r, b1, h1, _⟩
    · rw [Act.bind_ok _ _ _ _ _ h4] at h
      exact ih b1 _ s1 b h
    · rw [Act.bind_error _ _ _ _ _ h1] at h
      cases h

/-- C5, at scenario D: baseline 5, 6 missed blocks: needsReload is true, reload runs once,
the baseline afterwards is 6. -/
theorem baseline_refreshed_witness :
    mainLoop (scenarioEnv scenarioD) testConfig 1 5 (0, [])
      = (Except.ok 6, (0, [Step.needsUpdate false, Step.needsReload 5 true, Step.reload,
          Step.waitUntilAPIReady, Step.enableForging, Step.missedBlocks 6, Step.sleep 5])) ∧
    ∃ w4 w5 before, missedBlocks (scenarioEnv scenarioD) testConfig w4 = (Except.ok 6, w5) ∧
      (0 : Nat) = (scenarioEnv scenarioD).sleep interval w5 ∧
      [Step.needsUpdate false, Step.needsReload 5 true, Step.reload,
          Step.waitUntilAPIReady, Step.enableForging, Step.missedBlocks 6, Step.sleep 5]
        = before ++ [Step.missedBlocks 6, Step.sleep interval] :=
  have hrun : mainLoop (scenarioEnv scenarioD) testConfig 1 5 (0, [])
      = (Except.ok 6, (0, [Step.needsUpdate false, Step.needsReload 5 true, Step.reload,
          Step.waitUntilAPIReady, Step.enableForging, Step.missedBlocks 6, Step.sleep 5])) := by
    rw [mainLoop_succ, Act.bind_ok _ _ _ _ _ scenarioD_run]
    rfl
  ⟨hrun, baseline_refreshed (scenarioEnv scenarioD) testConfig 0 5 (0, []) _ 6 hrun⟩

end Lmon
